import Mathlib

/-!
Verification development for the `cli-unites` persistence core
(`cli_unites/core/db.py` and `cli_unites/core/match_notes.py`).

The Python code is shallowly embedded:

* Python strings are Lean `String`s; `str.strip()` / `str.lower()` /
  the `in` substring test are modelled character-wise below.
* Timestamps are modelled as follows: columns that are only ever stored
  and compared for ordering (`created_at`, `joined_at`) are kept as the
  ISO-8601 `String`s the code writes (the code writes them in a single
  uniform `isoformat` shape, on which lexicographic order coincides with
  chronological order, and `ORDER BY datetime(created_at)` is
  order-isomorphic to the raw string); instants that the code *parses
  and compares arithmetically* (`expires_at`, `redeemed_at`, the clock)
  are modelled as integers, with `Option (Option Int)` recording the
  three cases seen by `accept_team_invitation` (column NULL /
  present-but-unparseable / parseable).
* The nondeterminism of `uuid4()` and `datetime.now()` is resolved by
  passing the fresh identifier / clock value as an explicit argument.
* `while True:` retry loops are written as fuel recursion; the fuel is
  set strictly above the bound that the loop's own logic imposes
  (each retry requires a capability downgrade, or the `attempt > 50`
  guard fires), so the fuel never runs out on the modelled behaviours.
-/

/-! ## Python string primitives -/

/-- The characters `str.strip()` removes (the ASCII whitespace set). -/
def isPySpace (c : Char) : Bool :=
  c = ' ' || c = '\t' || c = '\n' || c = '\r' || c = '\x0b' || c = '\x0c'

/-- Strip characters satisfying `p` from both ends of a character list. -/
def stripChars (p : Char → Bool) (l : List Char) : List Char :=
  ((l.dropWhile p).reverse.dropWhile p).reverse

/-- Model of Python `str.strip()`. -/
def pyStrip (s : String) : String :=
  ⟨stripChars isPySpace s.data⟩

/-- Model of Python `str.strip('-')` (used by `slugify`). -/
def pyStripDash (s : String) : String :=
  ⟨stripChars (fun c => c = '-') s.data⟩

/-- Model of Python `str.lower()` (ASCII case folding suffices here). -/
def pyLower (s : String) : String :=
  ⟨s.data.map Char.toLower⟩

/-- Does the character list start with the given pattern? -/
def charsHasPrefix : List Char → List Char → Bool
  | _, [] => true
  | [], _ :: _ => false
  | c :: cs, p :: ps => c = p && charsHasPrefix cs ps

/-- Does the character list contain the pattern as a contiguous run? -/
def charsHasSubstr : List Char → List Char → Bool
  | [], pat => pat.isEmpty
  | c :: t, pat => charsHasPrefix (c :: t) pat || charsHasSubstr t pat

/-- Model of the Python substring test `pat in hay`. -/
def strContains (hay pat : String) : Bool :=
  charsHasSubstr hay.data pat.data

/-- Join character lists with a comma, the model of `",".join(...)`. -/
def joinComma : List (List Char) → List Char
  | [] => []
  | [x] => x
  | x :: y :: xs => x ++ ',' :: joinComma (y :: xs)

/-- Split a character list at commas (model of `str.split(",")`). -/
def splitCommaAux : List Char → List Char → List (List Char)
  | [], acc => [acc.reverse]
  | c :: rest, acc =>
    if c = ',' then acc.reverse :: splitCommaAux rest []
    else splitCommaAux rest (c :: acc)

/-- Model of `",".join(parts)` on strings. -/
def pyJoinComma (parts : List String) : String :=
  ⟨joinComma (parts.map String.data)⟩

/-- Model of `s.split(",")` on strings. -/
def pySplitComma (s : String) : List String :=
  (splitCommaAux s.data []).map String.mk

/-- Code-point comparison of characters (Python compares strings by
code points). -/
def charLt (a b : Char) : Bool :=
  a.val.toNat < b.val.toNat

/-- Lexicographic code-point order on character lists. -/
def charsLt : List Char → List Char → Bool
  | [], [] => false
  | [], _ :: _ => true
  | _ :: _, [] => false
  | a :: as, b :: bs => charLt a b || (a = b && charsLt as bs)

/-- Strict lexicographic order on strings, the model of Python `<`. -/
def pyStrLt (a b : String) : Bool :=
  charsLt a.data b.data

/-- Non-strict lexicographic order on strings, the model of Python `<=`. -/
def pyStrLe (a b : String) : Bool :=
  pyStrLt a b || a = b

/-- Ascending string order as a relation (for `sorted(...)`). -/
def strAsc (a b : String) : Prop := pyStrLe a b = true

instance : DecidableRel strAsc := fun _ _ => inferInstanceAs (Decidable (_ = true))

/-- Descending order through a string-valued key (for `ORDER BY key DESC`). -/
def descBy (key : α → String) (a b : α) : Prop := pyStrLe (key b) (key a) = true

instance (key : α → String) : DecidableRel (descBy key) :=
  fun _ _ => inferInstanceAs (Decidable (_ = true))


/-- Model of Python `sorted` on strings (lexicographic order). -/
def pySortedStrings (l : List String) : List String :=
  List.insertionSort strAsc l

/-- The normalisation applied to tag input before storage:
`{t.strip() for t in tags if t.strip()}` as a list. -/
def cleanTags (ts : List String) : List String :=
  (ts.map pyStrip).filter (fun t => t ≠ "")

/-- `sorted({t.strip() for t in tags if t.strip()})`. -/
def normalizedTags (ts : List String) : List String :=
  pySortedStrings (cleanTags ts).dedup


/-! ## Local mode: the sqlite `notes` table

One table, rows kept in insertion order (`Database._ensure_sqlite_schema`).
-/

/-- A row of the local sqlite `notes` table. -/
structure SqliteNote where
  id : String
  title : String
  body : String
  tags : Option String
  created_at : String
  git_commit : Option String
  git_branch : Option String
  project_path : Option String
  team_id : Option String
deriving DecidableEq, Repr

/-- The comma-joined tag string computed by `_sqlite_add_note`:
`",".join(sorted({t.strip() for t in tags if t.strip()})) if tags else None`.
(`if tags` is Python truthiness: both `None` and an empty list give `NULL`;
a non-empty list whose members all strip to empty gives the empty string.) -/
def sqliteTagString (tags : Option (List String)) : Option String :=
  match tags with
  | none => none
  | some ts => if ts.isEmpty then none else some (pyJoinComma (normalizedTags ts))

/-- `Database._sqlite_add_note`.  `note_id` stands for the fresh `uuid4()`
and `now` for `datetime.now(timezone.utc).isoformat(timespec="seconds")`. -/
def sqlite_add_note (st : List SqliteNote) (note_id now : String)
    (title body : String) (tags : Option (List String))
    (git_commit git_branch project_path team_id : Option String) :
    String × List SqliteNote :=
  (note_id,
    st ++ [{ id := note_id, title := title, body := body,
             tags := sqliteTagString tags, created_at := now,
             git_commit := git_commit, git_branch := git_branch,
             project_path := project_path, team_id := team_id }])

/-- `tags LIKE '%tag%'` on a nullable column: `NULL` never matches; sqlite
`LIKE` is case-insensitive for ASCII; the interpolated filter value is
treated as a literal (the tag filters of interest contain no wildcard). -/
def likeMatch (value : Option String) (pat : String) : Bool :=
  match value with
  | none => false
  | some s => strContains (pyLower s) (pyLower pat)

/-- `ORDER BY datetime(created_at) DESC` as a sort of the row list.
sqlite leaves the relative order of equal keys unspecified; the model
commits to one order-correct choice. -/
def sortByCreatedDesc (rows : List SqliteNote) : List SqliteNote :=
  List.insertionSort (descBy SqliteNote.created_at) rows

/-- `Database._sqlite_list_notes`.  Note the Python truthiness tests:
an empty-string tag or team filter and a `limit` of `0` are all treated
as absent. -/
def sqlite_list_notes (st : List SqliteNote) (limit : Option Nat)
    (tag : Option String) (team_id : Option String) : List SqliteNote :=
  let rows :=
    match tag with
    | none => st
    | some t => if t = "" then st else st.filter (fun n => likeMatch n.tags t)
  let rows :=
    match team_id with
    | none => rows
    | some t => if t = "" then rows else rows.filter (fun n => n.team_id = some t)
  let rows := sortByCreatedDesc rows
  match limit with
  | none => rows
  | some l => if l = 0 then rows else rows.take l

/-- `Database._sqlite_get_note`: first row with the given id. -/
def sqlite_get_note (st : List SqliteNote) (note_id : String) : Option SqliteNote :=
  (st.filter (fun n => n.id = note_id)).head?

/-- The tag tokens of a stored note, reading the comma-joined column back
(`NULL` reads as no tags). -/
def storedTagTokens (tags : Option String) : List String :=
  match tags with
  | none => []
  | some s => pySplitComma s

/-! ## Similarity matcher (`core/match_notes.py`)

Embedding vectors are real-valued lists; the float rounding of numpy is
not modelled (the claims are about the selection/ordering algorithm).
The two vectors of a dot product are assumed to have equal dimension, as
numpy raises on a mismatch.
-/

/-- A row of the remote `notes` table as fetched by `match_notes`
(only rows with a non-null `body_embedding` are fetched). -/
structure EmbNote where
  id : String
  title : String
  body : String
  user_id : String
  project_id : Option String
  path_id : Option String
  created_at : String
  updated_at : String
  body_embedding : Option (List ℝ)

/-- A result record produced by `match_notes`: the note's fields plus the
computed `similarity`. -/
structure MatchResult where
  note : EmbNote
  similarity : ℝ

/-- `np.dot` on equal-length vectors. -/
def dotProd (a b : List ℝ) : ℝ :=
  (List.zipWith (· * ·) a b).sum

/-- `np.linalg.norm`: the Euclidean norm. -/
noncomputable def vecNorm (a : List ℝ) : ℝ :=
  Real.sqrt ((a.map (fun x => x * x)).sum)

/-- `dot(A, B) / (norm(A) * norm(B))`. -/
noncomputable def cosineSim (q e : List ℝ) : ℝ :=
  dotProd q e / (vecNorm q * vecNorm e)

/-- Descending order of similarity
(`results.sort(key=lambda x: x["similarity"], reverse=True)`). -/
def simDesc (a b : MatchResult) : Prop := b.similarity ≤ a.similarity

noncomputable instance : DecidableRel simDesc :=
  fun a b => inferInstanceAs (Decidable (b.similarity ≤ a.similarity))

instance : IsTotal MatchResult simDesc := ⟨fun a b => le_total b.similarity a.similarity⟩

instance : IsTrans MatchResult simDesc := ⟨fun _ _ _ hab hbc => le_trans hbc hab⟩

/-- `match_notes` from `core/match_notes.py`: fetch the rows with an
embedding, accumulate those whose cosine similarity exceeds the
threshold, sort by similarity (highest first) and truncate to `limit`. -/
noncomputable def match_notes (query : List ℝ) (table : List EmbNote)
    (limit : Nat) (threshold : ℝ) : List MatchResult :=
  let notes := table.filter (fun n => n.body_embedding.isSome)
  let results := notes.foldl
    (fun acc note =>
      let sim := cosineSim query (note.body_embedding.getD [])
      if threshold < sim then acc ++ [⟨note, sim⟩] else acc)
    []
  (List.insertionSort simDesc results).take limit

/-- The Similarity Matcher as the spec words it: keep exactly the
candidates with similarity strictly above the threshold, sort them in
descending order of similarity, truncate to `limit`. -/
noncomputable def matchNotesSpec (query : List ℝ) (table : List EmbNote)
    (limit : Nat) (threshold : ℝ) : List MatchResult :=
  (List.insertionSort simDesc
    (((table.filter (fun n => n.body_embedding.isSome)).map
        (fun n => ⟨n, cosineSim query (n.body_embedding.getD [])⟩)).filter
      (fun r => threshold < r.similarity))).take limit

/-! ## Remote mode: backend model

The Supabase/PostgREST backend is external to the repository, so it is
modelled at its interface boundary: concrete tables plus a schema
descriptor saying which optional columns/tables the deployed migration
has.  Touching a missing column or table raises the PostgREST-style
message the capability handlers sniff for.  `slug_filter_silent` selects
the behaviour of filtering on an absent `slug` column: a real PostgREST
rejects the query (`false`), while injected test doubles may simply
return no rows (`true`); both backends are covered.  Server-generated
row ids (`uuid4()` on the client or defaults on the server) are resolved
by a per-connection counter producing UUID-shaped strings.
-/

/-- Which optional schema elements the deployed remote migration has. -/
structure RemoteSchema where
  teams_slug : Bool
  teams_description : Bool
  teams_created_by : Bool
  teams_deleted_at : Bool
  users_teams_role : Bool
  users_teams_invited_by : Bool
  team_invitations_table : Bool
  notes_team_id : Bool
  slug_filter_silent : Bool
deriving DecidableEq, Repr

/-- A row of the remote `teams` table. -/
structure TeamRow where
  id : String
  name : String
  slug : Option String
  description : Option String
  created_by : Option String
  deleted_at : Option String
deriving DecidableEq, Repr

/-- A row of the remote `users_teams` table. -/
structure MembershipRow where
  user_id : String
  team_id : String
  joined_at : String
  role : Option String
  invited_by : Option String
deriving DecidableEq, Repr

/-- A row of the remote `team_invitations` table.  `expires_at` is the
parse outcome of the stored text: `none` = column NULL, `some none` =
present but not ISO-8601-parseable, `some (some t)` = parses to the
instant `t`. -/
structure InviteRow where
  code : String
  team_id : String
  email : String
  role : String
  invited_by : Option String
  expires_at : Option (Option Int)
  redeemed_at : Option Int
deriving DecidableEq, Repr

/-- A row of the remote `notes` table (the columns this core touches). -/
structure RemoteNoteRow where
  id : String
  title : String
  body : String
  user_id : String
  project_id : Option String
  team_id : Option String
  created_at : String
deriving DecidableEq, Repr

/-- A row of the remote `tags` table. -/
structure TagRow where
  id : String
  name : String
deriving DecidableEq, Repr

/-- A row of the remote `notes_tags` join table. -/
structure NoteTagRow where
  note_id : String
  tag_id : String
deriving DecidableEq, Repr

/-- A row of the remote `projects` table. -/
structure ProjectRow where
  id : String
  name : String
  absolute_path : String
  team_id : Option String
deriving DecidableEq, Repr

/-- The remote backend: schema descriptor, table contents (rows in
insertion order) and the id-generation counter. -/
structure Remote where
  schema : RemoteSchema
  teams : List TeamRow
  users_teams : List MembershipRow
  team_invitations : List InviteRow
  notes : List RemoteNoteRow
  tags : List TagRow
  notes_tags : List NoteTagRow
  projects : List ProjectRow
  next_id : Nat
deriving DecidableEq, Repr

/-- The n-th generated row id.  Fresh ids need only be distinct from each
other (none of the modelled flows resolves a generated id through the
UUID shape test), so an injective-by-length scheme is used. -/
def genName (n : Nat) : String :=
  ⟨'i' :: 'd' :: '-' :: List.replicate n '0'⟩

/-- Draw a fresh row id from the backend counter. -/
def genId (r : Remote) : String × Remote :=
  (genName r.next_id, { r with next_id := r.next_id + 1 })

/-- PostgREST-style message for a missing column. -/
def missingColumnMsg (tbl col : String) : String :=
  "column " ++ tbl ++ "." ++ col ++ " does not exist"

/-- PostgREST-style message for a missing table. -/
def missingTableMsg (tbl : String) : String :=
  "relation " ++ tbl ++ " does not exist"

/-- Postgres-style message for a uniqueness violation. -/
def duplicateMsg (constraintName : String) : String :=
  "duplicate key value violates unique constraint " ++ constraintName

/-- An insert payload for `teams` (absent keys are `none`). -/
structure TeamInsert where
  name : String
  slug : Option String
  description : Option String
  created_by : Option String
deriving DecidableEq, Repr

/-- `client.table("teams").insert(payload).execute()`.  Unknown payload
columns are rejected with the missing-column message; the `slug` column
carries a uniqueness constraint. -/
def insertTeamB (r : Remote) (p : TeamInsert) : Except String (TeamRow × Remote) :=
  if p.slug.isSome && !r.schema.teams_slug then
    .error (missingColumnMsg "teams" "slug")
  else if p.description.isSome && !r.schema.teams_description then
    .error (missingColumnMsg "teams" "description")
  else if p.created_by.isSome && !r.schema.teams_created_by then
    .error (missingColumnMsg "teams" "created_by")
  else if p.slug.isSome && r.teams.any (fun t => t.slug = p.slug) then
    .error (duplicateMsg "teams_slug_key")
  else
    let (tid, r) := genId r
    let row : TeamRow :=
      { id := tid, name := p.name, slug := p.slug, description := p.description,
        created_by := p.created_by, deleted_at := none }
    .ok (row, { r with teams := r.teams ++ [row] })

/-- `client.table("teams").select(...).eq("slug", v)`: filtering on the
absent column errors, or matches nothing when the backend is silent. -/
def selectTeamsBySlug (r : Remote) (slug : String) : Except String (List TeamRow) :=
  if r.schema.teams_slug then .ok (r.teams.filter (fun t => t.slug = some slug))
  else if r.schema.slug_filter_silent then .ok []
  else .error (missingColumnMsg "teams" "slug")

/-- `.eq("id", v)` on `teams`. -/
def selectTeamsById (r : Remote) (tid : String) : List TeamRow :=
  r.teams.filter (fun t => t.id = tid)

/-- `.eq("name", v)` on `teams`. -/
def selectTeamsByName (r : Remote) (name : String) : List TeamRow :=
  r.teams.filter (fun t => t.name = name)

/-- `.ilike("name", v)` on `teams` (the pattern contains no wildcard, so
this is a case-insensitive exact match). -/
def selectTeamsByNameILike (r : Remote) (name : String) : List TeamRow :=
  r.teams.filter (fun t => pyLower t.name = pyLower name)

/-- An insert payload for `users_teams`. -/
structure MembershipInsert where
  user_id : String
  team_id : String
  joined_at : String
  role : Option String
  invited_by : Option String
deriving DecidableEq, Repr

/-- `client.table("users_teams").insert(payload).execute()`: one
membership row per (user, team) pair. -/
def insertMembershipB (r : Remote) (p : MembershipInsert) : Except String Remote :=
  if p.role.isSome && !r.schema.users_teams_role then
    .error (missingColumnMsg "users_teams" "role")
  else if p.invited_by.isSome && !r.schema.users_teams_invited_by then
    .error (missingColumnMsg "users_teams" "invited_by")
  else if r.users_teams.any (fun m => m.user_id = p.user_id && m.team_id = p.team_id) then
    .error (duplicateMsg "users_teams_pkey")
  else
    .ok { r with users_teams := r.users_teams ++
      [{ user_id := p.user_id, team_id := p.team_id, joined_at := p.joined_at,
         role := p.role, invited_by := p.invited_by }] }

/-- The `users_teams` select of `_fetch_membership`: the requested column
list may name the optional `role` / `invited_by` columns; requesting a
missing column errors, and columns not requested read back as `None`. -/
def selectMembershipB (r : Remote) (includeRole includeInvitedBy : Bool) (u t : String) :
    Except String (Option MembershipRow) :=
  if includeRole && !r.schema.users_teams_role then
    .error (missingColumnMsg "users_teams" "role")
  else if includeInvitedBy && !r.schema.users_teams_invited_by then
    .error (missingColumnMsg "users_teams" "invited_by")
  else
    .ok (((r.users_teams.filter (fun m => m.user_id = u && m.team_id = t)).head?).map
      (fun m => { m with role := if includeRole then m.role else none,
                         invited_by := if includeInvitedBy then m.invited_by else none }))

/-- `client.table("teams").update({"deleted_at": now}).eq("id", tid)`:
returns the updated rows, as `response.data` does. -/
def updateTeamDeletedAtB (r : Remote) (tid : String) (now_iso : String) :
    Except String (List TeamRow × Remote) :=
  if !r.schema.teams_deleted_at then
    .error (missingColumnMsg "teams" "deleted_at")
  else
    let newTeams := r.teams.map
      (fun t => if t.id = tid then { t with deleted_at := some now_iso } else t)
    .ok ((r.teams.filter (fun t => t.id = tid)).map (fun t => { t with deleted_at := some now_iso }),
      { r with teams := newTeams })

/-- `client.table("teams").delete().eq("id", tid)`. -/
def deleteTeamsB (r : Remote) (tid : String) : Remote :=
  { r with teams := r.teams.filter (fun t => t.id ≠ tid) }

/-- `.eq("code", v)` on `team_invitations`. -/
def selectInvitesByCode (r : Remote) (code : String) : Except String (List InviteRow) :=
  if !r.schema.team_invitations_table then .error (missingTableMsg "team_invitations")
  else .ok (r.team_invitations.filter (fun i => i.code = code))

/-- The active-invitation lookup of `create_team_invitation`
(`.eq(team).eq(email).is_("redeemed_at", None)`). -/
def selectActiveInvites (r : Remote) (team_id email : String) : Except String (List InviteRow) :=
  if !r.schema.team_invitations_table then .error (missingTableMsg "team_invitations")
  else .ok (r.team_invitations.filter
    (fun i => i.team_id = team_id && i.email = email && i.redeemed_at = none))

/-- An insert payload for `team_invitations`. -/
structure InviteInsert where
  code : String
  team_id : String
  email : String
  role : String
  invited_by : String
  expires_at : Int
deriving DecidableEq, Repr

/-- `client.table("team_invitations").insert(payload).execute()`:
invitation codes are unique. -/
def insertInviteB (r : Remote) (p : InviteInsert) : Except String Remote :=
  if !r.schema.team_invitations_table then .error (missingTableMsg "team_invitations")
  else if r.team_invitations.any (fun i => i.code = p.code) then
    .error (duplicateMsg "team_invitations_code_key")
  else .ok { r with team_invitations := r.team_invitations ++
    [{ code := p.code, team_id := p.team_id, email := p.email, role := p.role,
       invited_by := some p.invited_by, expires_at := some (some p.expires_at),
       redeemed_at := none }] }

/-- `client.table("team_invitations").update({"redeemed_at": ...}).eq("code", code)`. -/
def updateInviteRedeemedB (r : Remote) (code : String) (now : Int) : Except String Remote :=
  if !r.schema.team_invitations_table then .error (missingTableMsg "team_invitations")
  else
    let updated := r.team_invitations.map
      (fun i => if i.code = code then { i with redeemed_at := some now } else i)
    .ok { r with team_invitations := updated }

/-- `.eq("name", v)` on `tags`. -/
def selectTagsByName (r : Remote) (name : String) : List TagRow :=
  r.tags.filter (fun tg => tg.name = name)

/-- `client.table("tags").insert(...)`. -/
def insertTagB (r : Remote) (tg : TagRow) : Remote :=
  { r with tags := r.tags ++ [tg] }

/-- `client.table("notes_tags").insert(...)`. -/
def insertNoteTagB (r : Remote) (lnk : NoteTagRow) : Remote :=
  { r with notes_tags := r.notes_tags ++ [lnk] }

/-- `.select("note_id").eq("tag_id", v)` on `notes_tags`. -/
def selectNoteIdsByTagId (r : Remote) (tag_id : String) : List String :=
  (r.notes_tags.filter (fun l => l.tag_id = tag_id)).map (fun l => l.note_id)

/-- `_project_ids_for_team`: `.select("id").eq("team_id", v)` on `projects`. -/
def selectProjectIdsByTeam (r : Remote) (team_id : String) : List String :=
  (r.projects.filter (fun p => p.team_id = some team_id)).map (fun p => p.id)

/-- The filters/order/limit a built-up `notes` query carries before
`execute()`. -/
structure NotesQuery where
  eq_team_id : Option String
  id_in : Option (List String)
  project_id_in : Option (List String)
  limit : Option Nat
deriving DecidableEq, Repr

/-- The backend `.order("created_at", desc=True)` on `notes` (the
relative order of equal keys is the unspecified tie order of the
backend; the model commits to one order-correct choice). -/
def sortRemoteNotesDesc (rows : List RemoteNoteRow) : List RemoteNoteRow :=
  List.insertionSort (descBy RemoteNoteRow.created_at) rows

/-- Execute a built-up `notes` query. -/
def execNotesQueryB (r : Remote) (q : NotesQuery) : Except String (List RemoteNoteRow) :=
  if q.eq_team_id.isSome && !r.schema.notes_team_id then
    .error (missingColumnMsg "notes" "team_id")
  else
    let rows := match q.eq_team_id with
      | none => r.notes
      | some t => r.notes.filter (fun n => n.team_id = some t)
    let rows := match q.id_in with
      | none => rows
      | some ids => rows.filter (fun n => ids.contains n.id)
    let rows := match q.project_id_in with
      | none => rows
      | some ids => rows.filter (fun n => (n.project_id.map ids.contains).getD false)
    let rows := sortRemoteNotesDesc rows
    .ok (match q.limit with
      | none => rows
      | some l => rows.take l)

/-! ## Schema capability tracker and error taxonomy -/

/-- The per-connection capability flags of `Database.__init__`. -/
structure Caps where
  supports_team_slug : Bool
  supports_team_description : Bool
  supports_team_created_by : Bool
  supports_user_team_role : Bool
  supports_user_team_invited_by : Bool
  supports_team_invitations : Bool
  supports_note_team_id : Bool
deriving DecidableEq, Repr

/-- All flags start `True` (`Database.__init__`, remote mode). -/
def Caps.init : Caps :=
  { supports_team_slug := true, supports_team_description := true,
    supports_team_created_by := true, supports_user_team_role := true,
    supports_user_team_invited_by := true, supports_team_invitations := true,
    supports_note_team_id := true }

/-- The typed error taxonomy raised by `Database` methods. -/
inductive DbError where
  | teamServiceUnavailable (msg : String)
  | duplicateResource (msg : String)
  | authorizationFailure (msg : String)
  | runtimeFailure (msg : String)
deriving DecidableEq, Repr

/-- The client state of one remote-mode connection: capability flags plus
the backend it talks to. -/
structure DbState where
  caps : Caps
  remote : Remote
deriving DecidableEq, Repr

/-- `Database._handle_slug_capability_error`.  Exceptions are modelled by
their message string; the extra `PostgrestAPIError.details` probe of the
source is subsumed by the message test for the backends modelled here. -/
def handle_slug_capability_error (caps : Caps) (msg : String) : Caps × Bool :=
  let m := pyLower msg
  if strContains m "slug" && (strContains m "does not exist" || strContains m "unknown column") then
    ({ caps with supports_team_slug := false }, true)
  else (caps, false)

/-- `Database._handle_team_column_error`. -/
def handle_team_column_error (caps : Caps) (msg : String) : Caps × Bool :=
  let m := pyLower msg
  let step1 : Caps × Bool :=
    if caps.supports_team_description && strContains m "description" && strContains m "teams" then
      ({ caps with supports_team_description := false }, true)
    else (caps, false)
  let caps := step1.1
  if caps.supports_team_created_by && strContains m "created_by" && strContains m "teams" then
    ({ caps with supports_team_created_by := false }, true)
  else (caps, step1.2)

/-- `Database._handle_users_team_column_error`. -/
def handle_users_team_column_error (caps : Caps) (msg : String) : Caps × Bool :=
  let m := pyLower msg
  let step1 : Caps × Bool :=
    if caps.supports_user_team_role && strContains m "role" && strContains m "users_teams" then
      ({ caps with supports_user_team_role := false }, true)
    else (caps, false)
  let caps := step1.1
  if caps.supports_user_team_invited_by && strContains m "invited_by" && strContains m "users_teams" then
    ({ caps with supports_user_team_invited_by := false }, true)
  else (caps, step1.2)

/-- `Database._handle_invitations_error`. -/
def handle_invitations_error (caps : Caps) (msg : String) : Caps × Bool :=
  let m := pyLower msg
  if strContains m "team_invitations" && (strContains m "does not exist" || strContains m "relation") then
    ({ caps with supports_team_invitations := false }, true)
  else (caps, false)

/-- `Database._handle_notes_column_error`. -/
def handle_notes_column_error (caps : Caps) (msg : String) : Caps × Bool :=
  let m := pyLower msg
  if caps.supports_note_team_id && strContains m "notes" && strContains m "team_id" &&
      (strContains m "does not exist" || strContains m "unknown column" || strContains m "column") then
    ({ caps with supports_note_team_id := false }, true)
  else (caps, false)

/-! ## Database operations (remote mode)

Each operation takes and returns the connection state, so that capability
downgrades performed before an exception propagates are retained, exactly
as the mutable flags on the Python object are.
-/

/-- `Database._require_user_id` in remote mode: the authenticated user id
or an authorization error. -/
def require_user_id (auth_user : Option String) : Except DbError String :=
  match auth_user with
  | some u => Except.ok u
  | none => Except.error (DbError.authorizationFailure
      "You must be authenticated. Run `notes login` to continue.")

/-- Is `c` in `[a-z0-9]`? -/
def isLowerAlnum (c : Char) : Bool :=
  (97 ≤ c.val.toNat && c.val.toNat ≤ 122) || (48 ≤ c.val.toNat && c.val.toNat ≤ 57)

/-- `re.sub(r"[^a-z0-9]+", "-", value)`: collapse each maximal run of
characters outside `[a-z0-9]` into a single dash. -/
def collapseDashes (l : List Char) : List Char :=
  (l.foldl
    (fun acc c =>
      if isLowerAlnum c then c :: acc
      else match acc with
        | '-' :: _ => acc
        | _ => '-' :: acc)
    []).reverse

/-- `slugify` from `db.py`. -/
def slugify (value : String) : String :=
  let value := pyLower (pyStrip value)
  let value := pyStripDash ⟨collapseDashes value.data⟩
  if value = "" then "team" else value

/-- Is `c` a hexadecimal digit? -/
def isHexChar (c : Char) : Bool :=
  (48 ≤ c.val.toNat && c.val.toNat ≤ 57) || (97 ≤ c.val.toNat && c.val.toNat ≤ 102) ||
    (65 ≤ c.val.toNat && c.val.toNat ≤ 70)

/-- Split a character list at dashes. -/
def splitDashAux : List Char → List Char → List (List Char)
  | [], acc => [acc.reverse]
  | c :: rest, acc =>
    if c = '-' then acc.reverse :: splitDashAux rest []
    else splitDashAux rest (c :: acc)

/-- `is_uuid` from `db.py` (the `UUID_REGEX` shape test). -/
def is_uuid (s : String) : Bool :=
  let groups := splitDashAux s.data []
  (groups.map List.length = [8, 4, 4, 4, 12]) && groups.all (fun g => g.all isHexChar)

/-- The retry loop of `Database._unique_team_slug`.  `attempt > 50` aborts,
so fuel `60` is never exhausted. -/
def unique_team_slug_go (base : String) (exclude : Option String) :
    Nat → Nat → String → DbState → Except DbError (Option String) × DbState
  | 0, _, _, st => (Except.error (DbError.runtimeFailure "slug loop fuel exhausted"), st)
  | fuel+1, attempt, candidate, st =>
    match selectTeamsBySlug st.remote candidate with
    | Except.error msg =>
      let (caps, handled) := handle_slug_capability_error st.caps msg
      let st := { st with caps := caps }
      if handled then (Except.ok none, st)
      else (Except.error (DbError.teamServiceUnavailable "Unable to generate unique team slug."), st)
    | Except.ok rows =>
      if rows.isEmpty then (Except.ok (some candidate), st)
      else if (match exclude with
               | some ex => rows.any (fun t => t.id = ex)
               | none => false) then
        (Except.ok (some candidate), st)
      else
        let attempt := attempt + 1
        let candidate := base ++ "-" ++ toString attempt
        if attempt > 50 then
          (Except.error (DbError.runtimeFailure
            "Unable to generate unique team slug after multiple attempts."), st)
        else
          unique_team_slug_go base exclude fuel attempt candidate st

/-- `Database._unique_team_slug`. -/
def unique_team_slug (st : DbState) (name : String) (exclude : Option String) :
    Except DbError (Option String) × DbState :=
  if !st.caps.supports_team_slug then (Except.ok none, st)
  else
    let base := slugify name
    unique_team_slug_go base exclude 60 1 base st

/-- `Database._fetch_team("slug", v)` (the only field whose select can
fail on a legacy schema). -/
def fetch_team_by_slug (st : DbState) (value : String) :
    Except DbError (Option TeamRow) × DbState :=
  match selectTeamsBySlug st.remote value with
  | Except.error msg =>
    let (caps, handled) := handle_slug_capability_error st.caps msg
    let st := { st with caps := caps }
    if handled then (Except.ok none, st)
    else (Except.error (DbError.teamServiceUnavailable "Failed to fetch team information."), st)
  | Except.ok rows => (Except.ok rows.head?, st)

/-- `Database._fetch_team_by_identifier`: UUID shape first, then slug,
then case-insensitive name. -/
def fetch_team_by_identifier (st : DbState) (identifier : String) :
    Except DbError (Option TeamRow) × DbState :=
  if identifier = "" then (Except.ok none, st)
  else
    match (if is_uuid identifier then (selectTeamsById st.remote identifier).head? else none) with
    | some t => (Except.ok (some t), st)
    | none =>
      let slugStep : Except DbError (Option TeamRow) × DbState :=
        if st.caps.supports_team_slug then fetch_team_by_slug st identifier
        else (Except.ok none, st)
      match slugStep with
      | (Except.error e, st) => (Except.error e, st)
      | (Except.ok (some t), st) => (Except.ok (some t), st)
      | (Except.ok none, st) =>
        (Except.ok (selectTeamsByNameILike st.remote identifier).head?, st)

/-- `Database._resolve_team_id` (remote branch). -/
def resolve_team_id (st : DbState) (identifier : String) :
    Except DbError (Option String) × DbState :=
  match fetch_team_by_identifier st identifier with
  | (Except.error e, st) => (Except.error e, st)
  | (Except.ok t, st) => (Except.ok (t.map (fun x => x.id)), st)

/-- The retry loop of `Database._fetch_membership` (at most two optional
columns can be dropped, so fuel `3` is never exhausted). -/
def fetch_membership_go : Nat → String → String → DbState →
    Except DbError (Option MembershipRow) × DbState
  | 0, _, _, st => (Except.error (DbError.runtimeFailure "membership loop fuel exhausted"), st)
  | fuel+1, u, t, st =>
    match selectMembershipB st.remote st.caps.supports_user_team_role
        st.caps.supports_user_team_invited_by u t with
    | Except.ok m => (Except.ok m, st)
    | Except.error msg =>
      let (caps, handled) := handle_users_team_column_error st.caps msg
      let st := { st with caps := caps }
      if handled then fetch_membership_go fuel u t st
      else (Except.error (DbError.teamServiceUnavailable "Failed to fetch team membership."), st)

/-- `Database._fetch_membership`. -/
def fetch_membership (st : DbState) (u t : String) :
    Except DbError (Option MembershipRow) × DbState :=
  fetch_membership_go 3 u t st

/-- `Database._assert_role`. -/
def assert_role (st : DbState) (auth_user : Option String) (team_id : String)
    (allowed : List String) : Except DbError Unit × DbState :=
  if !st.caps.supports_user_team_role then (Except.ok (), st)
  else
    match require_user_id auth_user with
    | Except.error e => (Except.error e, st)
    | Except.ok u =>
      match fetch_membership st u team_id with
      | (Except.error e, st) => (Except.error e, st)
      | (Except.ok m, st) =>
        let permitted := match m with
          | none => false
          | some mem => match mem.role with
            | none => false
            | some rl => allowed.contains rl
        if permitted then (Except.ok (), st)
        else (Except.error (DbError.authorizationFailure
          "You do not have permission to manage this team."), st)

/-- The retry loop of `Database.add_user_to_team`.  The ensure-user-exists
retry for foreign-key failures involves the auth manager and a backend
that raises no foreign-key errors here, so that branch is not taken. -/
def add_user_to_team_go : Nat → String → String → String → Option String → String →
    DbState → Except DbError Bool × DbState
  | 0, _, _, _, _, _, st =>
    (Except.error (DbError.runtimeFailure "membership insert fuel exhausted"), st)
  | fuel+1, user_id, team_id, role, invited_by, now_iso, st =>
    let payload : MembershipInsert :=
      { user_id := user_id, team_id := team_id, joined_at := now_iso,
        role := if st.caps.supports_user_team_role then some role else none,
        invited_by := match invited_by with
          | some s => if st.caps.supports_user_team_invited_by && s ≠ "" then some s else none
          | none => none }
    match insertMembershipB st.remote payload with
    | Except.ok r => (Except.ok true, { st with remote := r })
    | Except.error msg =>
      let (caps, handled) := handle_users_team_column_error st.caps msg
      let st := { st with caps := caps }
      if handled then add_user_to_team_go fuel user_id team_id role invited_by now_iso st
      else
        let m := pyLower msg
        if strContains m "duplicate" || strContains m "unique constraint" then
          (Except.error (DbError.duplicateResource "User is already a member of this team."), st)
        else (Except.error (DbError.teamServiceUnavailable
          ("Failed to add user to team: " ++ msg)), st)

/-- `Database.add_user_to_team`. -/
def add_user_to_team (st : DbState) (user_id team_id : String) (role : String)
    (invited_by : Option String) (now_iso : String) : Except DbError Bool × DbState :=
  add_user_to_team_go 4 user_id team_id role invited_by now_iso st

/-- The `if self.supports_team_slug:` block of the `create_team` loop
body: look up a unique slug and put it on the payload; when the
capability is off, neither runs (the Python local `slug_value` keeps its
previous value and the payload stays slugless). -/
def slug_payload_step (st : DbState) (name : String) (slug_value : Option String)
    (payload : TeamInsert) : Except DbError (Option String × TeamInsert) × DbState :=
  if st.caps.supports_team_slug then
    match unique_team_slug st name none with
    | (Except.error e, st) => (Except.error e, st)
    | (Except.ok sv, st) =>
      (Except.ok (sv,
        match sv with
        | some s => if s ≠ "" then { payload with slug := some s } else payload
        | none => payload), st)
  else (Except.ok (slug_value, payload), st)

/-- The retry loop of `Database.create_team`: build the payload from the
current capability flags, insert, and on a schema-mismatch error downgrade
and retry (note the Python `or` short-circuit: the team-column handler runs
only when the slug handler declined).  `slug_value` persists across
iterations, as the Python local does. -/
def create_team_go : Nat → String → String → Option String → Option String → DbState →
    Except DbError (TeamRow × Option String) × DbState
  | 0, _, _, _, _, st =>
    (Except.error (DbError.runtimeFailure "create_team retry fuel exhausted"), st)
  | fuel+1, user_id, name, description, slug_value, st =>
    let payload : TeamInsert := { name := name, slug := none, description := none, created_by := none }
    let payload := if description.isSome && st.caps.supports_team_description
      then { payload with description := description } else payload
    match slug_payload_step st name slug_value payload with
    | (Except.error e, st) => (Except.error e, st)
    | (Except.ok (slug_value, payload), st) =>
      let payload := if st.caps.supports_team_created_by
        then { payload with created_by := some user_id } else payload
      match insertTeamB st.remote payload with
      | Except.ok (row, r) => (Except.ok (row, slug_value), { st with remote := r })
      | Except.error msg =>
        let (caps1, h1) := handle_slug_capability_error st.caps msg
        if h1 then
          create_team_go fuel user_id name description slug_value { st with caps := caps1 }
        else
          let (caps2, h2) := handle_team_column_error caps1 msg
          let st := { st with caps := caps2 }
          if h2 then create_team_go fuel user_id name description slug_value st
          else
            let m := pyLower msg
            if strContains m "duplicate" || strContains m "unique constraint" then
              (Except.error (DbError.duplicateResource
                "Team name already exists. Try a different name."), st)
            else (Except.error (DbError.teamServiceUnavailable "Failed to create team."), st)

/-- `Database.create_team`.  The modelled backend always returns the
inserted row, so the slug/name refetch fallbacks after the loop are not
taken; the creator is then registered as owner, ignoring a duplicate. -/
def create_team (st : DbState) (auth_user : Option String) (name : String)
    (description : Option String) (now_iso : String) : Except DbError String × DbState :=
  match require_user_id auth_user with
  | Except.error e => (Except.error e, st)
  | Except.ok user_id =>
    match create_team_go 5 user_id name description none st with
    | (Except.error e, st) => (Except.error e, st)
    | (Except.ok (row, _), st) =>
      match add_user_to_team st user_id row.id "owner" (some user_id) now_iso with
      | (Except.error (DbError.duplicateResource _), st) => (Except.ok row.id, st)
      | (Except.error e, st) => (Except.error e, st)
      | (Except.ok _, st) => (Except.ok row.id, st)

/-- `Database.delete_team`: owner check, soft delete, hard-delete fallback
when the `deleted_at` column is missing. -/
def delete_team (st : DbState) (auth_user : Option String) (team_id : String)
    (now_iso : String) : Except DbError Bool × DbState :=
  match assert_role st auth_user team_id ["owner"] with
  | (Except.error e, st) => (Except.error e, st)
  | (Except.ok _, st) =>
    match updateTeamDeletedAtB st.remote team_id now_iso with
    | Except.ok (updated, r) =>
      if !updated.isEmpty then (Except.ok true, { st with remote := r })
      else (Except.ok false, { st with remote := r })
    | Except.error msg =>
      let m := pyLower msg
      if strContains m "column" && strContains m "deleted_at" then
        (Except.ok true, { st with remote := deleteTeamsB st.remote team_id })
      else (Except.error (DbError.teamServiceUnavailable "Failed to delete team."), st)

/-- The message raised whenever the invitations capability is off. -/
def invitationsUnavailableMsg : String :=
  "Team invitations require the latest Supabase migration. Apply the migration to enable invite codes."

/-- The duplicate-active-invitation lookup of `create_team_invitation`
(its first try/except block): reject when an unredeemed invitation for
the same team and email exists; lookup failures other than a missing
invitations table are ignored. -/
def invitation_dup_check (st : DbState) (team_id email : String) :
    Except DbError Unit × DbState :=
  match selectActiveInvites st.remote team_id email with
  | Except.ok existing =>
    if !existing.isEmpty then
      (Except.error (DbError.duplicateResource
        "An active invitation already exists for this email."), st)
    else (Except.ok (), st)
  | Except.error msg =>
    let (caps, handled) := handle_invitations_error st.caps msg
    let st := { st with caps := caps }
    if handled then
      (Except.error (DbError.teamServiceUnavailable invitationsUnavailableMsg), st)
    else (Except.ok (), st)

/-- `Database.create_team_invitation`.  `code` stands for
`invite_code or generate_invite_code()` and `now` for the clock; the
stored expiry is `expires_at or now + 7 days`. -/
def create_team_invitation (st : DbState) (auth_user : Option String)
    (email team_id : String) (role : String) (code : String) (expires_at : Option Int)
    (now : Int) : Except DbError InviteRow × DbState :=
  match assert_role st auth_user team_id ["owner", "admin"] with
  | (Except.error e, st) => (Except.error e, st)
  | (Except.ok _, st) =>
    match require_user_id auth_user with
    | Except.error e => (Except.error e, st)
    | Except.ok inviter_id =>
      if !st.caps.supports_team_invitations then
        (Except.error (DbError.teamServiceUnavailable invitationsUnavailableMsg), st)
      else
        let expiry : Int := expires_at.getD (now + 7 * 86400)
        match invitation_dup_check st team_id email with
        | (Except.error e, st) => (Except.error e, st)
        | (Except.ok _, st) =>
          let payload : InviteInsert :=
            { code := code, team_id := team_id, email := email, role := role,
              invited_by := inviter_id, expires_at := expiry }
          match insertInviteB st.remote payload with
          | Except.ok r =>
            (Except.ok { code := code, team_id := team_id, email := email, role := role,
                         invited_by := some inviter_id, expires_at := some (some expiry),
                         redeemed_at := none }, { st with remote := r })
          | Except.error msg =>
            let (caps, handled) := handle_invitations_error st.caps msg
            let st := { st with caps := caps }
            if handled then
              (Except.error (DbError.teamServiceUnavailable invitationsUnavailableMsg), st)
            else
              let m := pyLower msg
              if strContains m "duplicate" || strContains m "unique constraint" then
                (Except.error (DbError.duplicateResource "Invitation code already in use."), st)
              else
                (Except.error (DbError.teamServiceUnavailable "Failed to create invitation."), st)

/-- The result dictionary of a successful `accept_team_invitation`. -/
structure AcceptedInvite where
  team_id : String
  user_email : String
  role : String
deriving DecidableEq, Repr

/-- The tail of `accept_team_invitation`: stamp `redeemed_at` (failures
are logged and ignored) and return the acceptance payload. -/
def redeem_and_return (st : DbState) (code : String) (invite : InviteRow) (now : Int) :
    Except DbError (Option AcceptedInvite) × DbState :=
  let st := match updateInviteRedeemedB st.remote code now with
    | Except.ok r => { st with remote := r }
    | Except.error _ => st
  (Except.ok (some { team_id := invite.team_id, user_email := invite.email,
                     role := invite.role }), st)

/-- `Database.accept_team_invitation`. -/
def accept_team_invitation (st : DbState) (auth_user : Option String) (code : String)
    (user_id : Option String) (now : Int) (now_iso : String) :
    Except DbError (Option AcceptedInvite) × DbState :=
  let target : Except DbError String :=
    match user_id with
    | some u => if u ≠ "" then Except.ok u else require_user_id auth_user
    | none => require_user_id auth_user
  match target with
  | Except.error e => (Except.error e, st)
  | Except.ok target_user_id =>
    if !st.caps.supports_team_invitations then
      (Except.error (DbError.teamServiceUnavailable invitationsUnavailableMsg), st)
    else
      match selectInvitesByCode st.remote code with
      | Except.error msg =>
        let (caps, handled) := handle_invitations_error st.caps msg
        let st := { st with caps := caps }
        if handled then
          (Except.error (DbError.teamServiceUnavailable invitationsUnavailableMsg), st)
        else (Except.error (DbError.teamServiceUnavailable "Failed to look up invitation."), st)
      | Except.ok rows =>
        match rows.head? with
        | none => (Except.ok none, st)
        | some invite =>
          let expired : Bool := match invite.expires_at with
            | some (some t) => decide (t < now)
            | some none => false
            | none => false
          if expired then (Except.ok none, st)
          else
            match add_user_to_team st target_user_id invite.team_id invite.role
                invite.invited_by now_iso with
            | (Except.error (DbError.duplicateResource _), st) =>
              redeem_and_return st code invite now
            | (Except.error e, st) => (Except.error e, st)
            | (Except.ok _, st) => redeem_and_return st code invite now

/-- The retry recursion of remote `Database.list_notes` (a retry happens
only after the `notes.team_id` capability is downgraded, so fuel `3` is
never exhausted). -/
def list_notes_go : Nat → Option Nat → Option String → Option String → DbState →
    Except DbError (List RemoteNoteRow) × DbState
  | 0, _, _, _, st => (Except.error (DbError.runtimeFailure "list_notes retry fuel exhausted"), st)
  | fuel+1, limit, tag, team_id, st =>
    let resolved : Except DbError (Option String) × DbState :=
      match team_id with
      | none => (Except.ok none, st)
      | some t =>
        if t = "" then (Except.ok none, st)
        else
          match resolve_team_id st t with
          | (Except.error e, st) => (Except.error e, st)
          | (Except.ok r, st) => (Except.ok (some (r.getD t)), st)
    match resolved with
    | (Except.error e, st) => (Except.error e, st)
    | (Except.ok resolved_team, st) =>
      let q : NotesQuery := { eq_team_id := none, id_in := none, project_id_in := none, limit := none }
      let q := match resolved_team with
        | some rt =>
          let q := if st.caps.supports_note_team_id then { q with eq_team_id := some rt } else q
          let pids := selectProjectIdsByTeam st.remote rt
          if !pids.isEmpty then { q with project_id_in := some pids } else q
        | none => q
      let tagStep : Option NotesQuery :=
        match tag with
        | none => some q
        | some tg =>
          if tg = "" then some q
          else
            match (selectTagsByName st.remote tg).head? with
            | none => none
            | some tagRow =>
              let note_ids := selectNoteIdsByTagId st.remote tagRow.id
              if note_ids.isEmpty then none
              else some { q with id_in := some note_ids }
      match tagStep with
      | none => (Except.ok [], st)
      | some q =>
        let q := match limit with
          | some l => if l ≠ 0 then { q with limit := some l } else q
          | none => q
        match execNotesQueryB st.remote q with
        | Except.ok rows => (Except.ok rows, st)
        | Except.error msg =>
          let (caps, handled) := handle_notes_column_error st.caps msg
          let st := { st with caps := caps }
          if handled then list_notes_go fuel limit tag team_id st
          else (Except.error (DbError.teamServiceUnavailable "Failed to list notes."), st)

/-- Remote-mode `Database.list_notes`. -/
def list_notes_remote (st : DbState) (limit : Option Nat) (tag : Option String)
    (team_id : Option String) : Except DbError (List RemoteNoteRow) × DbState :=
  list_notes_go 3 limit tag team_id st

/-- One iteration of the `_add_tags_to_note` loop: reuse the first tag row
with the given name or create one, then link it to the note. -/
def add_tags_step (note_id : String) (st : DbState) (tag_name : String) : DbState :=
  match (selectTagsByName st.remote tag_name).head? with
  | some tagRow =>
    { st with remote := insertNoteTagB st.remote { note_id := note_id, tag_id := tagRow.id } }
  | none =>
    let (tid, r) := genId st.remote
    let r := insertTagB r { id := tid, name := tag_name }
    { st with remote := insertNoteTagB r { note_id := note_id, tag_id := tid } }

/-- `Database._add_tags_to_note`. -/
def add_tags_to_note (st : DbState) (note_id : String) (tags : List String) : DbState :=
  (normalizedTags tags).foldl (add_tags_step note_id) st

/-! ## Operation traces (for the capability-monotonicity claims) -/

/-- The remote-mode operations modelled in this development, with their
arguments (clock values and generated codes included). -/
inductive DbOp where
  | createTeam (auth_user : Option String) (name : String) (description : Option String)
      (now_iso : String)
  | deleteTeam (auth_user : Option String) (team_id : String) (now_iso : String)
  | addUserToTeam (user_id team_id : String) (role : String) (invited_by : Option String)
      (now_iso : String)
  | createInvitation (auth_user : Option String) (email team_id : String) (role : String)
      (code : String) (expires_at : Option Int) (now : Int)
  | acceptInvitation (auth_user : Option String) (code : String) (user_id : Option String)
      (now : Int) (now_iso : String)
  | listNotes (limit : Option Nat) (tag : Option String) (team_id : Option String)
  | addTags (note_id : String) (tags : List String)

/-- Run one operation, keeping the connection state it leaves behind
(whether it returned or raised). -/
def DbOp.step (st : DbState) : DbOp → DbState
  | DbOp.createTeam u n d ni => (create_team st u n d ni).2
  | DbOp.deleteTeam u t ni => (delete_team st u t ni).2
  | DbOp.addUserToTeam u t rl inv ni => (add_user_to_team st u t rl inv ni).2
  | DbOp.createInvitation u em t rl cd ex n => (create_team_invitation st u em t rl cd ex n).2
  | DbOp.acceptInvitation u cd uid n ni => (accept_team_invitation st u cd uid n ni).2
  | DbOp.listNotes lim tg tm => (list_notes_remote st lim tg tm).2
  | DbOp.addTags nid tgs => add_tags_to_note st nid tgs

/-- Run a sequence of operations on one connection. -/
def runTrace (st : DbState) (ops : List DbOp) : DbState :=
  ops.foldl DbOp.step st

/-- Pointwise implication between capability states: every flag still on
in `a` was already on in `b` (capabilities only ever go down from `b` to
`a`). -/
def CapsLE (a b : Caps) : Prop :=
  (a.supports_team_slug = true → b.supports_team_slug = true) ∧
  (a.supports_team_description = true → b.supports_team_description = true) ∧
  (a.supports_team_created_by = true → b.supports_team_created_by = true) ∧
  (a.supports_user_team_role = true → b.supports_user_team_role = true) ∧
  (a.supports_user_team_invited_by = true → b.supports_user_team_invited_by = true) ∧
  (a.supports_team_invitations = true → b.supports_team_invitations = true) ∧
  (a.supports_note_team_id = true → b.supports_note_team_id = true)

/-- The note is linked, through `notes_tags`, to a `tags` row whose name
is exactly `t` (the exact-token tag membership of the remote data model). -/
def remoteNoteHasTag (r : Remote) (n : RemoteNoteRow) (t : String) : Prop :=
  ∃ tg ∈ r.tags, tg.name = t ∧ ({ note_id := n.id, tag_id := tg.id } : NoteTagRow) ∈ r.notes_tags

/-- The tag names linked to a note (resolving each link through the
`tags` table). -/
def linkedTagNames (r : Remote) (note_id : String) : List String :=
  (r.notes_tags.filter (fun l => l.note_id = note_id)).flatMap
    (fun l => (r.tags.filter (fun tg => tg.id = l.tag_id)).map (fun tg => tg.name))

/-- Well-formedness of the tag tables: tag rows are pairwise distinct in
id and name, and no stored tag id or link target collides with an id the
generator has yet to hand out. -/
def TagsWf (r : Remote) : Prop :=
  r.tags.Pairwise (fun a b => a.id ≠ b.id ∧ a.name ≠ b.name)
  ∧ (∀ tg ∈ r.tags, ∀ m, r.next_id ≤ m → tg.id ≠ genName m)
  ∧ (∀ l ∈ r.notes_tags, ∀ m, r.next_id ≤ m → l.tag_id ≠ genName m)

/-! ## Concrete fixtures (used by witnesses and counterexamples) -/

/-- An empty local row with placeholder content. -/
def blankNote : SqliteNote :=
  { id := "n0", title := "T", body := "B", tags := none,
    created_at := "2024-01-01T10:00:00+00:00", git_commit := none,
    git_branch := none, project_path := none, team_id := none }

/-- Two local rows sharing one creation instant. -/
def twinNotes : List SqliteNote :=
  [{ blankNote with id := "a1", title := "Alpha" },
   { blankNote with id := "b2", title := "Beta" }]

/-- A local row tagged `releases` (and nothing else). -/
def releasesNote : SqliteNote :=
  { blankNote with id := "r1", tags := some "releases" }

/-- The newest remote migration: every optional column and table present. -/
def fullSchema : RemoteSchema :=
  { teams_slug := true, teams_description := true, teams_created_by := true,
    teams_deleted_at := true, users_teams_role := true, users_teams_invited_by := true,
    team_invitations_table := true, notes_team_id := true, slug_filter_silent := false }

/-- An empty backend over a given schema. -/
def emptyRemote (schema : RemoteSchema) : Remote :=
  { schema := schema, teams := [], users_teams := [], team_invitations := [],
    notes := [], tags := [], notes_tags := [], projects := [], next_id := 0 }

/-- A fresh full-schema connection state. -/
def freshSt : DbState :=
  { caps := Caps.init, remote := emptyRemote fullSchema }

/-- A remote note row with placeholder content. -/
def blankRemoteNote : RemoteNoteRow :=
  { id := "n0", title := "T", body := "B", user_id := "u1",
    project_id := none, team_id := none, created_at := "2024-01-01T10:00:00+00:00" }

/-- A team row fixture. -/
def demoTeam : TeamRow :=
  { id := "t1", name := "Team One", slug := some "team-one", description := none,
    created_by := some "u1", deleted_at := none }

/-- A non-owner membership fixture: user `u1` is a `member` of `t1`. -/
def demoMembership : MembershipRow :=
  { user_id := "u1", team_id := "t1", joined_at := "2024-01-01T00:00:00+00:00",
    role := some "member", invited_by := none }

/-- An invitation row fixture (expiry instant 100). -/
def demoInvite : InviteRow :=
  { code := "ABC123", team_id := "t1", email := "member1", role := "member",
    invited_by := none, expires_at := some (some 100), redeemed_at := none }

/-- A full-schema state holding one invitation that expires at 100. -/
def inviteSt : DbState :=
  { caps := Caps.init,
    remote := { emptyRemote fullSchema with team_invitations := [demoInvite] } }

/-- A remote state with one note linked to a tag named `releases`. -/
def tagDemoSt : DbState :=
  { caps := Caps.init,
    remote := { emptyRemote fullSchema with
      notes := [blankRemoteNote],
      tags := [{ id := "tg1", name := "releases" }],
      notes_tags := [{ note_id := "n0", tag_id := "tg1" }] } }

/-- A full-schema state holding one already-redeemed invitation whose
expiry instant 500 is still in the future, together with the membership
row its first redemption created. -/
def redeemedInviteSt : DbState :=
  { caps := Caps.init,
    remote := { emptyRemote fullSchema with
      team_invitations :=
        [{ demoInvite with expires_at := some (some 500), redeemed_at := some 100 }],
      users_teams := [{ user_id := "u1", team_id := "t1", joined_at := "j1",
                        role := some "member", invited_by := none }] } }

/-- A fresh connection to a backend whose `teams` table lacks the `slug`
column and whose filters silently match nothing on the missing column. -/
def noSlugSt : DbState :=
  { caps := Caps.init,
    remote := emptyRemote
      { fullSchema with teams_slug := false, slug_filter_silent := true } }

/-! ## Proofs -/

/-! ### Order facts for the sorting relations -/

theorem charsLt_trichotomy (a : List Char) :
    ∀ b, charsLt a b = true ∨ a = b ∨ charsLt b a = true := by
  induction a with
  | nil => intro b; cases b <;> simp [charsLt]
  | cons c cs ih =>
    intro b
    cases b with
    | nil => simp [charsLt]
    | cons d ds =>
      rcases Nat.lt_trichotomy c.val.toNat d.val.toNat with h | h | h
      · exact Or.inl (by simp [charsLt, charLt, h])
      · have hcd : c = d := Char.ext (by
          apply UInt32.ext
          omega)
        rcases ih ds with h' | h' | h'
        · exact Or.inl (by simp [charsLt, hcd, h'])
        · exact Or.inr (Or.inl (by rw [hcd, h']))
        · exact Or.inr (Or.inr (by simp [charsLt, hcd, h']))
      · exact Or.inr (Or.inr (by simp [charsLt, charLt, h]))

theorem charsLt_trans {a b c : List Char}
    (hab : charsLt a b = true) (hbc : charsLt b c = true) :
    charsLt a c = true := by
  induction a generalizing b c with
  | nil =>
    cases b with
    | nil => simp [charsLt] at hab
    | cons d ds => cases c with
      | nil => simp [charsLt] at hbc
      | cons e es => simp [charsLt]
  | cons x xs ih =>
    cases b with
    | nil => simp [charsLt] at hab
    | cons d ds =>
      cases c with
      | nil => simp [charsLt] at hbc
      | cons e es =>
        simp only [charsLt, Bool.or_eq_true, Bool.and_eq_true, decide_eq_true_eq,
          charLt] at hab hbc ⊢
        rcases hab with hab | ⟨rfl, hab⟩
        · rcases hbc with hbc | ⟨rfl, _⟩
          · exact Or.inl (by omega)
          · exact Or.inl hab
        · rcases hbc with hbc | ⟨rfl, hbc⟩
          · exact Or.inl hbc
          · exact Or.inr ⟨rfl, ih hab hbc⟩

theorem pyStrLe_total (a b : String) : pyStrLe a b = true ∨ pyStrLe b a = true := by
  rcases charsLt_trichotomy a.data b.data with h | h | h
  · exact Or.inl (by simp [pyStrLe, pyStrLt, h])
  · have : a = b := by
      cases a; cases b; exact congrArg String.mk (by simpa using h)
    exact Or.inl (by simp [pyStrLe, this])
  · exact Or.inr (by simp [pyStrLe, pyStrLt, h])

theorem pyStrLe_trans {a b c : String}
    (hab : pyStrLe a b = true) (hbc : pyStrLe b c = true) :
    pyStrLe a c = true := by
  simp only [pyStrLe, pyStrLt, Bool.or_eq_true, decide_eq_true_eq] at hab hbc ⊢
  rcases hab with hab | rfl
  · rcases hbc with hbc | rfl
    · exact Or.inl (charsLt_trans hab hbc)
    · exact Or.inl hab
  · exact hbc

instance : IsTotal String strAsc := ⟨pyStrLe_total⟩

instance : IsTrans String strAsc := ⟨fun _ _ _ => pyStrLe_trans⟩

instance (key : α → String) : IsTotal α (descBy key) :=
  ⟨fun a b => show pyStrLe (key b) (key a) = true ∨ pyStrLe (key a) (key b) = true from
    Or.symm (pyStrLe_total (key a) (key b))⟩

instance (key : α → String) : IsTrans α (descBy key) :=
  ⟨fun _ _ _ hab hbc => pyStrLe_trans hbc hab⟩

/-! ### Round-trip facts about the comma join/split -/

theorem splitCommaAux_append_of_no_comma (x : List Char) (hx : ',' ∉ x) :
    ∀ (l acc : List Char),
      splitCommaAux (x ++ l) acc = splitCommaAux l (x.reverse ++ acc) := by
  induction x with
  | nil => intro l acc; simp
  | cons c cs ih =>
    intro l acc
    have hc : c ≠ ',' := by intro h; exact hx (h ▸ List.mem_cons_self c cs)
    have hcs : ',' ∉ cs := fun h => hx (List.mem_cons_of_mem c h)
    simp [splitCommaAux, hc, ih hcs, List.append_assoc]

theorem splitComma_joinComma (parts : List (List Char))
    (hne : parts ≠ []) (hnc : ∀ p ∈ parts, ',' ∉ p) :
    splitCommaAux (joinComma parts) [] = parts := by
  induction parts with
  | nil => exact absurd rfl hne
  | cons x xs ih =>
    cases xs with
    | nil =>
      have hx : ',' ∉ x := hnc x (List.mem_cons_self _ _)
      have := splitCommaAux_append_of_no_comma x hx [] []
      simpa [joinComma, splitCommaAux] using this
    | cons y ys =>
      have hx : ',' ∉ x := hnc x (List.mem_cons_self _ _)
      have hrest : ∀ p ∈ y :: ys, ',' ∉ p :=
        fun p hp => hnc p (List.mem_cons_of_mem x hp)
      have h1 := splitCommaAux_append_of_no_comma x hx (',' :: joinComma (y :: ys)) []
      have h2 := ih (by simp) hrest
      simp [joinComma, h1, splitCommaAux, h2]

theorem pySplitComma_pyJoinComma (parts : List String)
    (hne : parts ≠ []) (hnc : ∀ p ∈ parts, ',' ∉ p.data) :
    pySplitComma (pyJoinComma parts) = parts := by
  unfold pySplitComma pyJoinComma
  have hne' : parts.map String.data ≠ [] := by
    simpa using hne
  have hnc' : ∀ q ∈ parts.map String.data, ',' ∉ q := by
    intro q hq
    rcases List.mem_map.mp hq with ⟨p, hp, rfl⟩
    exact hnc p hp
  rw [show (String.mk (joinComma (parts.map String.data))).data
        = joinComma (parts.map String.data) from rfl]
  rw [splitComma_joinComma _ hne' hnc', List.map_map]
  exact (List.map_congr_left fun p _ => rfl).trans (List.map_id parts)

/-! ### Generic list lemmas -/

theorem foldl_ite_append {α β : Type} (p : α → Prop) [DecidablePred p] (g : α → β) :
    ∀ (l : List α) (acc : List β),
      l.foldl (fun acc x => if p x then acc ++ [g x] else acc) acc
        = acc ++ (l.filter (fun x => decide (p x))).map g := by
  intro l
  induction l with
  | nil => intro acc; simp
  | cons x xs ih =>
    intro acc
    by_cases hx : p x <;> simp [hx, ih, List.filter_cons]

theorem mem_insertionSort {r : α → α → Prop} [DecidableRel r] {a : α} {l : List α} :
    a ∈ List.insertionSort r l ↔ a ∈ l :=
  (List.perm_insertionSort r l).mem_iff

/-! ### C9: the similarity matcher -/

/-- C9: `match_notes` returns exactly the candidates whose cosine
similarity `dot(q,c) / (‖q‖·‖c‖)` strictly exceeds the threshold, sorted
in descending order of similarity and truncated to at most `limit`
results: it coincides with the spec-side `matchNotesSpec`, every returned
similarity is above the threshold, the output is sorted descending, and
its length is at most `limit`. -/
theorem match_notes_correct (query : List ℝ) (table : List EmbNote)
    (limit : Nat) (threshold : ℝ) :
    match_notes query table limit threshold = matchNotesSpec query table limit threshold
    ∧ (match_notes query table limit threshold).length ≤ limit
    ∧ List.Pairwise simDesc (match_notes query table limit threshold)
    ∧ ∀ r ∈ match_notes query table limit threshold, threshold < r.similarity := by
  have heq : match_notes query table limit threshold
      = matchNotesSpec query table limit threshold := by
    simp only [match_notes, matchNotesSpec]
    rw [foldl_ite_append
      (fun n : EmbNote => threshold < cosineSim query (n.body_embedding.getD []))
      (fun n : EmbNote =>
        ({ note := n, similarity := cosineSim query (n.body_embedding.getD []) } : MatchResult))]
    rw [List.filter_map]
    simp [Function.comp]
  refine ⟨heq, ?_, ?_, ?_⟩
  · simp only [match_notes]
    exact List.length_take_le _ _
  · simp only [match_notes]
    exact List.Pairwise.sublist (List.take_sublist _ _) (List.sorted_insertionSort simDesc _)
  · intro r hr
    rw [heq] at hr
    unfold matchNotesSpec at hr
    have h1 := List.take_subset _ _ hr
    have h2 := mem_insertionSort.mp h1
    have h3 := List.mem_filter.mp h2
    exact of_decide_eq_true h3.2

/-! ### Facts about tag normalisation -/

theorem mem_stripChars {p : Char → Bool} {c : Char} {l : List Char}
    (h : c ∈ stripChars p l) : c ∈ l := by
  unfold stripChars at h
  have h1 := List.mem_reverse.mp h
  have h2 := (List.dropWhile_sublist _).subset h1
  have h3 := List.mem_reverse.mp h2
  exact (List.dropWhile_sublist _).subset h3

theorem mem_pyStrip_data {c : Char} {s : String} (h : c ∈ (pyStrip s).data) :
    c ∈ s.data :=
  mem_stripChars h

theorem cleanTags_eq_self {ts : List String}
    (h : ∀ t ∈ ts, pyStrip t = t ∧ t ≠ "") : cleanTags ts = ts := by
  unfold cleanTags
  have h1 : ts.map pyStrip = ts :=
    (List.map_congr_left (fun t ht => (h t ht).1)).trans (List.map_id ts)
  rw [h1]
  exact List.filter_eq_self.mpr (fun t ht => by simp [(h t ht).2])

theorem mem_normalizedTags {t : String} {ts : List String} :
    t ∈ normalizedTags ts ↔ t ∈ cleanTags ts := by
  unfold normalizedTags pySortedStrings
  rw [mem_insertionSort, List.mem_dedup]

theorem mem_cleanTags {t : String} {ts : List String} :
    t ∈ cleanTags ts ↔ (∃ u ∈ ts, pyStrip u = t) ∧ t ≠ "" := by
  unfold cleanTags
  rw [List.mem_filter]
  simp [List.mem_map]

/-! ### C7: add_note then get_note returns the normalised tag set -/

/-- C7: for all valid inputs (tags already clean tokens: stripped,
non-empty, comma-free), after `_sqlite_add_note` returns the fresh id,
`_sqlite_get_note` on that id returns a note whose stored tag tokens are
exactly the deduplicated, sorted input tag set. -/
theorem add_note_then_get_note_tags
    (st : List SqliteNote) (note_id now title body : String)
    (tags : List String) (gc gb pp tm : Option String)
    (hfresh : ∀ n ∈ st, n.id ≠ note_id)
    (hclean : ∀ t ∈ tags, pyStrip t = t ∧ t ≠ "" ∧ ',' ∉ t.data) :
    ∃ n, sqlite_get_note
        (sqlite_add_note st note_id now title body (some tags) gc gb pp tm).2 note_id
        = some n
      ∧ storedTagTokens n.tags = pySortedStrings tags.dedup := by
  have hfilter : st.filter (fun n => n.id = note_id) = [] := by
    rw [List.filter_eq_nil_iff]
    intro n hn
    simp [hfresh n hn]
  refine ⟨{ id := note_id, title := title, body := body,
            tags := sqliteTagString (some tags), created_at := now,
            git_commit := gc, git_branch := gb, project_path := pp, team_id := tm }, ?_, ?_⟩
  · simp only [sqlite_add_note, sqlite_get_note]
    rw [List.filter_append, hfilter]
    simp
  · by_cases htags : tags = []
    · subst htags
      simp [sqliteTagString, storedTagTokens, pySortedStrings, List.insertionSort]
    · have hct : cleanTags tags = tags :=
        cleanTags_eq_self (fun t ht => ⟨(hclean t ht).1, (hclean t ht).2.1⟩)
      have hnt : normalizedTags tags = pySortedStrings tags.dedup := by
        unfold normalizedTags
        rw [hct]
      have hLne : pySortedStrings tags.dedup ≠ [] := by
        intro h0
        have hlen := (List.perm_insertionSort strAsc tags.dedup).length_eq
        rw [show List.insertionSort strAsc tags.dedup = pySortedStrings tags.dedup from rfl,
          h0] at hlen
        exact htags (by simpa using List.length_eq_zero.mp hlen.symm)
      have hcomma : ∀ p ∈ pySortedStrings tags.dedup, ',' ∉ p.data := by
        intro p hp
        have hdp : p ∈ tags.dedup := mem_insertionSort.mp hp
        exact (hclean p (List.mem_dedup.mp hdp)).2.2
      have hne : tags.isEmpty = false := by
        cases tags with
        | nil => exact absurd rfl htags
        | cons a l => rfl
      simp only [sqliteTagString, storedTagTokens, hne, Bool.false_eq_true, if_false, hnt]
      exact pySplitComma_pyJoinComma _ hLne hcomma

/-- Witness for C7 at a concrete input. -/
theorem add_note_then_get_note_tags_witness :
    ∃ n, sqlite_get_note
        (sqlite_add_note [] "n1" "2024-01-01T00:00:00+00:00" "T" "B"
          (some ["beta", "alpha", "beta"]) none none none none).2 "n1"
        = some n
      ∧ storedTagTokens n.tags = pySortedStrings ["beta", "alpha", "beta"].dedup :=
  add_note_then_get_note_tags [] "n1" "2024-01-01T00:00:00+00:00" "T" "B"
    ["beta", "alpha", "beta"] none none none none
    (by intro n hn; cases hn)
    (by decide)

/-! ### C8: limit and ordering of list_notes -/

theorem sqlite_list_notes_sorted (st : List SqliteNote) (tag team : Option String) :
    List.Pairwise (descBy SqliteNote.created_at) (sqlite_list_notes st none tag team) := by
  simp only [sqlite_list_notes]
  exact List.sorted_insertionSort _ _

theorem sqlite_list_notes_limit_take (st : List SqliteNote) (N : Nat) (hN : N ≠ 0)
    (tag team : Option String) :
    sqlite_list_notes st (some N) tag team = (sqlite_list_notes st none tag team).take N := by
  simp only [sqlite_list_notes]
  rw [if_neg hN]

theorem list_notes_go_plain (fuel : Nat) (st : DbState) (N : Nat) (hN : N ≠ 0) :
    list_notes_go (fuel+1) (some N) none none st
      = (Except.ok ((sortRemoteNotesDesc st.remote.notes).take N), st) := by
  simp only [list_notes_go, execNotesQueryB]
  rw [if_pos hN]
  simp

/-- C8 (amended): for every positive `N`, `list_notes(limit=N)` returns at
most `N` notes ordered by non-increasing creation time, in both modes.
(Amendments forced by the counterexample: Python treats `limit=0` as "no
limit", and rows sharing a creation instant make the descending order
non-strict.) -/
theorem list_notes_limit_and_order :
    (∀ (st : List SqliteNote) (N : Nat) (tag team : Option String), 1 ≤ N →
      (sqlite_list_notes st (some N) tag team).length ≤ N
      ∧ List.Pairwise (descBy SqliteNote.created_at) (sqlite_list_notes st (some N) tag team))
    ∧ (∀ (st : DbState) (N : Nat), 1 ≤ N →
      list_notes_remote st (some N) none none
        = (Except.ok ((sortRemoteNotesDesc st.remote.notes).take N), st)
      ∧ ((sortRemoteNotesDesc st.remote.notes).take N).length ≤ N
      ∧ List.Pairwise (descBy RemoteNoteRow.created_at)
          ((sortRemoteNotesDesc st.remote.notes).take N)) := by
  constructor
  · intro st N tag team hN
    have hN0 : N ≠ 0 := by omega
    rw [sqlite_list_notes_limit_take st N hN0 tag team]
    exact ⟨List.length_take_le _ _,
      List.Pairwise.sublist (List.take_sublist _ _) (sqlite_list_notes_sorted st tag team)⟩
  · intro st N hN
    have hN0 : N ≠ 0 := by omega
    refine ⟨list_notes_go_plain 2 st N hN0, List.length_take_le _ _, ?_⟩
    exact List.Pairwise.sublist (List.take_sublist _ _)
      (List.sorted_insertionSort (descBy RemoteNoteRow.created_at) st.remote.notes)

/-- Witness for the amended C8 at concrete inputs in both modes. -/
theorem list_notes_limit_and_order_witness :
    ((sqlite_list_notes twinNotes (some 1) none none).length ≤ 1
      ∧ List.Pairwise (descBy SqliteNote.created_at) (sqlite_list_notes twinNotes (some 1) none none))
    ∧ (list_notes_remote { freshSt with remote := { freshSt.remote with notes := [blankRemoteNote] } }
          (some 1) none none
        = (Except.ok ((sortRemoteNotesDesc [blankRemoteNote]).take 1),
           { freshSt with remote := { freshSt.remote with notes := [blankRemoteNote] } })
      ∧ ((sortRemoteNotesDesc [blankRemoteNote]).take 1).length ≤ 1
      ∧ List.Pairwise (descBy RemoteNoteRow.created_at)
          ((sortRemoteNotesDesc [blankRemoteNote]).take 1)) :=
  ⟨list_notes_limit_and_order.1 twinNotes 1 none none (by decide),
   list_notes_limit_and_order.2
     { freshSt with remote := { freshSt.remote with notes := [blankRemoteNote] } } 1 (by decide)⟩

/-- Counterexample to C8 as stated: with two stored rows sharing one
creation instant, the claim "`list_notes(limit=N)` returns at most N notes
ordered strictly by descending creation time" fails at `N = 0`: Python
treats `limit=0` as "no limit", both rows come back, and the pair is not
strictly descending. -/
theorem list_notes_limit_counterexample :
    ¬ ((sqlite_list_notes twinNotes (some 0) none none).length ≤ 0
       ∧ List.Pairwise (fun a b : SqliteNote => pyStrLt b.created_at a.created_at = true)
           (sqlite_list_notes twinNotes (some 0) none none)) := by
  decide

/-! ### C3: the tag filter -/

theorem sqlite_list_notes_tag_mem (st : List SqliteNote) (t : String) (ht : t ≠ "")
    (n : SqliteNote) :
    n ∈ sqlite_list_notes st none (some t) none
      ↔ n ∈ st ∧ likeMatch n.tags t = true := by
  simp only [sqlite_list_notes]
  rw [if_neg ht]
  unfold sortByCreatedDesc
  rw [mem_insertionSort, List.mem_filter]

theorem mem_selectTagsByName {r : Remote} {t : String} {tg : TagRow} :
    tg ∈ selectTagsByName r t ↔ tg ∈ r.tags ∧ tg.name = t := by
  unfold selectTagsByName
  rw [List.mem_filter]
  simp

theorem list_notes_go_tag (fuel : Nat) (st : DbState) (t : String) (ht : t ≠ "")
    (hname : ∀ tg1 ∈ st.remote.tags, ∀ tg2 ∈ st.remote.tags, tg1.name = tg2.name → tg1 = tg2) :
    ∃ l, list_notes_go (fuel+1) none (some t) none st = (Except.ok l, st)
      ∧ ∀ n, n ∈ l ↔ n ∈ st.remote.notes ∧ remoteNoteHasTag st.remote n t := by
  simp only [list_notes_go]
  rw [if_neg ht]
  cases hfl : selectTagsByName st.remote t with
  | nil =>
    refine ⟨[], by simp [hfl], ?_⟩
    intro n
    simp only [List.not_mem_nil, false_iff]
    rintro ⟨-, tg, htg, hnm, -⟩
    have hmem : tg ∈ selectTagsByName st.remote t := mem_selectTagsByName.mpr ⟨htg, hnm⟩
    rw [hfl] at hmem
    exact absurd hmem (List.not_mem_nil tg)
  | cons tagRow rest =>
    have htr : tagRow ∈ st.remote.tags ∧ tagRow.name = t := by
      have : tagRow ∈ selectTagsByName st.remote t := by
        rw [hfl]; exact List.mem_cons_self _ _
      exact mem_selectTagsByName.mp this
    have hlink : ∀ n : RemoteNoteRow,
        (n.id ∈ selectNoteIdsByTagId st.remote tagRow.id ↔ remoteNoteHasTag st.remote n t) := by
      intro n
      unfold selectNoteIdsByTagId remoteNoteHasTag
      constructor
      · intro hid
        rcases List.mem_map.mp hid with ⟨lnk, hlnk, hlid⟩
        rcases List.mem_filter.mp hlnk with ⟨hlnk', htid⟩
        refine ⟨tagRow, htr.1, htr.2, ?_⟩
        have : lnk = { note_id := n.id, tag_id := tagRow.id } := by
          cases lnk
          simp only [NoteTagRow.mk.injEq]
          constructor
          · simpa using hlid
          · simpa using htid
        rw [← this]
        exact hlnk'
      · rintro ⟨tg, htg, hnm, hl⟩
        have htge : tg = tagRow := hname tg htg tagRow htr.1 (hnm.trans htr.2.symm)
        subst htge
        refine List.mem_map.mpr ⟨{ note_id := n.id, tag_id := tg.id }, ?_, rfl⟩
        rw [List.mem_filter]
        exact ⟨hl, by simp⟩
    cases hni : selectNoteIdsByTagId st.remote tagRow.id with
    | nil =>
      refine ⟨[], by simp [hfl, hni], ?_⟩
      intro n
      simp only [List.not_mem_nil, false_iff]
      rintro ⟨-, hhas⟩
      have := (hlink n).mpr hhas
      rw [hni] at this
      exact absurd this (List.not_mem_nil _)
    | cons i0 irest =>
      refine ⟨sortRemoteNotesDesc
        (st.remote.notes.filter (fun n => (i0 :: irest).contains n.id)), ?_, ?_⟩
      · simp [hfl, hni, execNotesQueryB]
      · intro n
        unfold sortRemoteNotesDesc
        rw [mem_insertionSort, List.mem_filter]
        constructor
        · rintro ⟨hn, hc⟩
          refine ⟨hn, (hlink n).mp ?_⟩
          rw [hni]
          exact List.elem_iff.mp hc
        · rintro ⟨hn, hhas⟩
          refine ⟨hn, List.elem_iff.mpr ?_⟩
          have := (hlink n).mpr hhas
          rw [hni] at this
          exact this

/-- C3 (amended): the tag filter of `list_notes` is an exact-token match
in remote mode (a note is returned iff a tag row named exactly `t` is
linked to it), but in local sqlite mode it is a substring `LIKE` match on
the comma-joined tag string, so a note tagged `releases` IS returned by
`list_notes(tag="release")` there. -/
theorem list_notes_tag_filter :
    (∀ (st : List SqliteNote) (t : String), t ≠ "" →
      ∀ n, n ∈ sqlite_list_notes st none (some t) none
        ↔ n ∈ st ∧ likeMatch n.tags t = true)
    ∧ (∀ (st : DbState) (t : String), t ≠ "" →
      (∀ tg1 ∈ st.remote.tags, ∀ tg2 ∈ st.remote.tags, tg1.name = tg2.name → tg1 = tg2) →
      ∃ l, list_notes_remote st none (some t) none = (Except.ok l, st)
        ∧ ∀ n, n ∈ l ↔ n ∈ st.remote.notes ∧ remoteNoteHasTag st.remote n t) := by
  constructor
  · intro st t ht n
    exact sqlite_list_notes_tag_mem st t ht n
  · intro st t ht hname
    exact list_notes_go_tag 2 st t ht hname

/-- Witness for the amended C3 at concrete inputs in both modes. -/
theorem list_notes_tag_filter_witness :
    (releasesNote ∈ sqlite_list_notes [releasesNote] none (some "release") none
      ↔ releasesNote ∈ [releasesNote] ∧ likeMatch releasesNote.tags "release" = true)
    ∧ ∃ l, list_notes_remote tagDemoSt none (some "releases") none = (Except.ok l, tagDemoSt)
        ∧ ∀ n, n ∈ l ↔ n ∈ tagDemoSt.remote.notes ∧ remoteNoteHasTag tagDemoSt.remote n "releases" :=
  ⟨list_notes_tag_filter.1 [releasesNote] "release" (by decide) releasesNote,
   list_notes_tag_filter.2 tagDemoSt "releases" (by decide) (by decide)⟩

/-- Counterexample to C3 as stated: in local mode the tag filter is the
substring match `tags LIKE '%tag%'`, so the note tagged `releases` is
returned by `list_notes(tag="release")`. -/
theorem tag_filter_substring_counterexample :
    releasesNote ∈ sqlite_list_notes [releasesNote] none (some "release") none := by
  decide

/-! ### C10: tag normalisation before storage -/

theorem genName_inj {a b : Nat} (h : genName a = genName b) : a = b := by
  have hd := congrArg String.data h
  simp only [genName] at hd
  have hlen := congrArg List.length hd
  simpa using hlen

theorem filter_id_unique {l : List TagRow}
    (h : l.Pairwise (fun a b => a.id ≠ b.id ∧ a.name ≠ b.name))
    {x : TagRow} (hx : x ∈ l) : l.filter (fun tg => tg.id = x.id) = [x] := by
  induction l with
  | nil => cases hx
  | cons a as ih =>
    obtain ⟨hhead, htail⟩ := List.pairwise_cons.mp h
    rcases List.mem_cons.mp hx with rfl | hx'
    · simp only [List.filter_cons]
      rw [if_pos (by simp)]
      have hnil : as.filter (fun tg => tg.id = x.id) = [] := by
        rw [List.filter_eq_nil_iff]
        intro b hb
        simp [Ne.symm (hhead b hb).1]
      simp [hnil]
    · have hax := hhead x hx'
      simp only [List.filter_cons]
      rw [if_neg (by simp [hax.1])]
      exact ih htail hx'

theorem flatMap_congr_mem {α β : Type} {f g : α → List β} :
    ∀ {l : List α}, (∀ a ∈ l, f a = g a) → l.flatMap f = l.flatMap g := by
  intro l
  induction l with
  | nil => intro _; rfl
  | cons a as ih =>
    intro h
    simp only [List.flatMap_cons]
    rw [h a (List.mem_cons_self _ _), ih (fun b hb => h b (List.mem_cons_of_mem a hb))]

theorem linkedTagNames_no_links (r : Remote) (nid : String)
    (h : ∀ l ∈ r.notes_tags, l.note_id ≠ nid) : linkedTagNames r nid = [] := by
  unfold linkedTagNames
  have hnil : r.notes_tags.filter (fun l => l.note_id = nid) = [] := by
    rw [List.filter_eq_nil_iff]
    intro l hl
    simp [h l hl]
  rw [hnil]
  rfl

theorem add_tags_step_spec (nid x : String) (st : DbState) (hwf : TagsWf st.remote) :
    TagsWf (add_tags_step nid st x).remote
    ∧ linkedTagNames (add_tags_step nid st x).remote nid
        = linkedTagNames st.remote nid ++ [x] := by
  obtain ⟨hpw, hids, hlinks⟩ := hwf
  unfold add_tags_step
  cases hsel : (selectTagsByName st.remote x).head? with
  | some tagRow =>
    have htr : tagRow ∈ st.remote.tags ∧ tagRow.name = x := by
      cases hfl : selectTagsByName st.remote x with
      | nil => rw [hfl] at hsel; cases hsel
      | cons a as =>
        rw [hfl] at hsel
        have ha : a = tagRow := by simpa using hsel
        subst ha
        exact mem_selectTagsByName.mp (by rw [hfl]; exact List.mem_cons_self _ _)
    constructor
    · refine ⟨hpw, hids, ?_⟩
      intro l hl m hm
      simp only [insertNoteTagB, List.mem_append, List.mem_singleton] at hl
      rcases hl with hl | rfl
      · exact hlinks l hl m hm
      · exact hids tagRow htr.1 m hm
    · unfold linkedTagNames insertNoteTagB
      simp only
      rw [List.filter_append, List.flatMap_append]
      congr 1
      have hflt : List.filter (fun l => l.note_id = nid)
          [({ note_id := nid, tag_id := tagRow.id } : NoteTagRow)]
          = [({ note_id := nid, tag_id := tagRow.id } : NoteTagRow)] := by
        simp
      rw [hflt]
      simp [filter_id_unique hpw htr.1, htr.2]
  | none =>
    have hnone : ∀ tg ∈ st.remote.tags, tg.name ≠ x := by
      rw [List.head?_eq_none_iff] at hsel
      intro tg htg hx
      have : tg ∈ selectTagsByName st.remote x := mem_selectTagsByName.mpr ⟨htg, hx⟩
      rw [hsel] at this
      cases this
    constructor
    · refine ⟨?_, ?_, ?_⟩
      · simp only [insertNoteTagB, insertTagB, genId]
        rw [List.pairwise_append]
        refine ⟨hpw, by simp, ?_⟩
        intro a ha b hb
        rw [List.mem_singleton] at hb
        subst hb
        exact ⟨hids a ha _ le_rfl, hnone a ha⟩
      · intro tg htg m hm
        simp only [insertNoteTagB, insertTagB, genId, List.mem_append,
          List.mem_singleton] at htg hm
        rcases htg with htg | rfl
        · exact hids tg htg m (by omega)
        · intro hgen
          have := genName_inj hgen
          omega
      · intro l hl m hm
        simp only [insertNoteTagB, insertTagB, genId, List.mem_append,
          List.mem_singleton] at hl hm
        rcases hl with hl | rfl
        · exact hlinks l hl m (by omega)
        · intro hgen
          have := genName_inj hgen
          omega
    · unfold linkedTagNames insertNoteTagB insertTagB genId
      simp only
      rw [List.filter_append, List.flatMap_append]
      have hold : (List.filter (fun l => l.note_id = nid) st.remote.notes_tags).flatMap
            (fun l => ((st.remote.tags ++ [({ id := genName st.remote.next_id, name := x } : TagRow)]).filter
                (fun tg => tg.id = l.tag_id)).map (fun tg => tg.name))
          = (List.filter (fun l => l.note_id = nid) st.remote.notes_tags).flatMap
            (fun l => (st.remote.tags.filter (fun tg => tg.id = l.tag_id)).map (fun tg => tg.name)) := by
        apply flatMap_congr_mem
        intro l hl
        rw [List.filter_append]
        have hnew : List.filter (fun tg => tg.id = l.tag_id)
            [({ id := genName st.remote.next_id, name := x } : TagRow)] = [] := by
          have := hlinks l (List.mem_filter.mp hl).1 st.remote.next_id le_rfl
          simp [Ne.symm this]
        rw [hnew, List.append_nil]
      rw [hold]
      congr 1
      have hflt : List.filter (fun l => l.note_id = nid)
          [({ note_id := nid, tag_id := genName st.remote.next_id } : NoteTagRow)]
          = [({ note_id := nid, tag_id := genName st.remote.next_id } : NoteTagRow)] := by
        simp
      rw [hflt]
      have holdtags : List.filter
          (fun tg => tg.id = genName st.remote.next_id) st.remote.tags = [] := by
        rw [List.filter_eq_nil_iff]
        intro tg htg
        simp [hids tg htg st.remote.next_id le_rfl]
      simp [holdtags]

theorem add_tags_fold (nid : String) :
    ∀ (L : List String) (st : DbState), TagsWf st.remote →
      TagsWf (L.foldl (add_tags_step nid) st).remote
      ∧ linkedTagNames (L.foldl (add_tags_step nid) st).remote nid
          = linkedTagNames st.remote nid ++ L := by
  intro L
  induction L with
  | nil =>
    intro st h
    exact ⟨h, by simp⟩
  | cons x xs ih =>
    intro st h
    have hstep := add_tags_step_spec nid x st h
    have hxs := ih (add_tags_step nid st x) hstep.1
    refine ⟨hxs.1, ?_⟩
    rw [List.foldl_cons, hxs.2, hstep.2]
    simp

theorem tagsWf_fresh : TagsWf freshSt.remote := by
  refine ⟨?_, ?_, ?_⟩ <;> simp [freshSt, emptyRemote]

/-- C10: before deduplication and sorting, `add_note` normalises its tag
input: every tag is stripped of surrounding whitespace and any tag that
is empty after stripping is discarded.  In local mode the stored
comma-joined string parses back to exactly the sorted deduplication of
the stripped non-empty tags; in remote mode the tag rows that
`_add_tags_to_note` links to the note carry exactly those names.  (The
local conclusion is stated for comma-free tags with at least one
survivor, since the comma-joined column cannot represent other token
lists unambiguously.) -/
theorem add_note_tag_normalisation :
    (∀ ts : List String, cleanTags ts ≠ [] → (∀ u ∈ ts, ',' ∉ u.data) →
      storedTagTokens (sqliteTagString (some ts)) = normalizedTags ts
      ∧ ∀ tok ∈ normalizedTags ts, (∃ u ∈ ts, pyStrip u = tok) ∧ tok ≠ "")
    ∧ (∀ (st : DbState) (nid : String) (ts : List String), TagsWf st.remote →
      (∀ l ∈ st.remote.notes_tags, l.note_id ≠ nid) →
      linkedTagNames (add_tags_to_note st nid ts).remote nid = normalizedTags ts
      ∧ ∀ tok ∈ normalizedTags ts, (∃ u ∈ ts, pyStrip u = tok) ∧ tok ≠ "") := by
  have htok : ∀ ts : List String,
      ∀ tok ∈ normalizedTags ts, (∃ u ∈ ts, pyStrip u = tok) ∧ tok ≠ "" := by
    intro ts tok htokmem
    exact mem_cleanTags.mp (mem_normalizedTags.mp htokmem)
  constructor
  · intro ts hcne hcomma
    refine ⟨?_, htok ts⟩
    have hne : ts ≠ [] := by
      intro h0
      apply hcne
      rw [h0]
      rfl
    have hempty : ts.isEmpty = false := by
      cases ts with
      | nil => exact absurd rfl hne
      | cons a l => rfl
    have hLne : normalizedTags ts ≠ [] := by
      intro h0
      have hlen := (List.perm_insertionSort strAsc (cleanTags ts).dedup).length_eq
      rw [show List.insertionSort strAsc (cleanTags ts).dedup = normalizedTags ts from rfl,
        h0] at hlen
      exact hcne (by simpa using List.length_eq_zero.mp hlen.symm)
    have hLcomma : ∀ p ∈ normalizedTags ts, ',' ∉ p.data := by
      intro p hp
      obtain ⟨⟨u, hu, hup⟩, -⟩ := htok ts p hp
      intro hc
      rw [← hup] at hc
      exact hcomma u hu (mem_pyStrip_data hc)
    simp only [sqliteTagString, storedTagTokens, hempty, Bool.false_eq_true, if_false]
    exact pySplitComma_pyJoinComma _ hLne hLcomma
  · intro st nid ts hwf hfresh
    refine ⟨?_, htok ts⟩
    have hfold := add_tags_fold nid (normalizedTags ts) st hwf
    unfold add_tags_to_note
    rw [hfold.2, linkedTagNames_no_links st.remote nid hfresh]
    simp

/-- Witness for C10 at concrete inputs in both modes. -/
theorem add_note_tag_normalisation_witness :
    (storedTagTokens (sqliteTagString (some [" alpha ", "beta", " "]))
        = normalizedTags [" alpha ", "beta", " "]
      ∧ ∀ tok ∈ normalizedTags [" alpha ", "beta", " "],
          (∃ u ∈ [" alpha ", "beta", " "], pyStrip u = tok) ∧ tok ≠ "")
    ∧ (linkedTagNames (add_tags_to_note freshSt "n7" [" alpha ", "beta", " "]).remote "n7"
        = normalizedTags [" alpha ", "beta", " "]
      ∧ ∀ tok ∈ normalizedTags [" alpha ", "beta", " "],
          (∃ u ∈ [" alpha ", "beta", " "], pyStrip u = tok) ∧ tok ≠ "") :=
  ⟨add_note_tag_normalisation.1 [" alpha ", "beta", " "] (by decide) (by decide),
   add_note_tag_normalisation.2 freshSt "n7" [" alpha ", "beta", " "] tagsWf_fresh
     (by intro l hl; simp [freshSt, emptyRemote] at hl)⟩

/-! ### C5: expired invitations are not accepted -/

/-- C5: when the stored expiry of the invitation found for `code` parses
to an instant strictly before the current time, `accept_team_invitation`
returns the not-found result `None`, grants no membership, and leaves the
connection state untouched. -/
theorem accept_expired_invitation (st : DbState) (u code : String) (te now : Int)
    (now_iso : String) (inv : InviteRow)
    (hcap : st.caps.supports_team_invitations = true)
    (hsch : st.remote.schema.team_invitations_table = true)
    (hfound : (st.remote.team_invitations.filter (fun i => i.code = code)).head? = some inv)
    (hexpat : inv.expires_at = some (some te))
    (hexp : te < now) :
    accept_team_invitation st (some u) code none now now_iso = (Except.ok none, st) := by
  simp only [accept_team_invitation, require_user_id, selectInvitesByCode, hsch, hcap,
    Bool.not_true, Bool.false_eq_true, if_false, hfound, hexpat]
  simp [hexp]

/-- Witness for C5: a concrete invitation that expired at instant 100 is
rejected at instant 200. -/
theorem accept_expired_invitation_witness :
    accept_team_invitation inviteSt (some "u1") "ABC123" none 200 "2024-02-01T00:00:00+00:00"
      = (Except.ok none, inviteSt) :=
  accept_expired_invitation inviteSt "u1" "ABC123" 100 200 "2024-02-01T00:00:00+00:00"
    demoInvite (by decide) (by decide) (by decide) (by decide) (by decide)

/-! ### C6: redemption does not spend the code -/

theorem add_user_duplicate (fuel : Nat) (st : DbState) (u t rl : String)
    (inv : Option String) (ni : String)
    (hrole : st.remote.schema.users_teams_role = true)
    (hinvby : st.remote.schema.users_teams_invited_by = true)
    (hmem : st.remote.users_teams.any (fun m => m.user_id = u && m.team_id = t) = true) :
    add_user_to_team_go (fuel+1) u t rl inv ni st
      = (Except.error (DbError.duplicateResource "User is already a member of this team."), st) := by
  have hnorole : strContains (pyLower (duplicateMsg "users_teams_pkey")) "role" = false := by rfl
  have hnoinvby : strContains (pyLower (duplicateMsg "users_teams_pkey")) "invited_by" = false := by
    rfl
  have hdup : strContains (pyLower (duplicateMsg "users_teams_pkey")) "duplicate" = true := by rfl
  simp only [add_user_to_team_go, insertMembershipB, hrole, hinvby, Bool.not_true,
    Bool.and_false, Bool.false_eq_true, if_false, hmem, if_true,
    handle_users_team_column_error, hnorole, hnoinvby, hdup]
  simp

/-- C6 (amended): redemption stamps `redeemed_at`, but
`accept_team_invitation` never checks that stamp: a later accept of the
same code by the same user, while the stored expiry instant is not yet
past, succeeds again — it returns the acceptance payload rather than the
not-found result, adds no membership row (the duplicate insert is
swallowed), and changes the state only by overwriting `redeemed_at` of
the rows bearing that code with the new instant. -/
theorem accept_redeemed_invitation (st : DbState) (u code : String) (r te now : Int)
    (now_iso : String) (inv : InviteRow)
    (hcap : st.caps.supports_team_invitations = true)
    (hsch : st.remote.schema.team_invitations_table = true)
    (hrole : st.remote.schema.users_teams_role = true)
    (hinvby : st.remote.schema.users_teams_invited_by = true)
    (hfound : (st.remote.team_invitations.filter (fun i => i.code = code)).head? = some inv)
    (hred : inv.redeemed_at = some r)
    (hexpat : inv.expires_at = some (some te))
    (hfresh : ¬ te < now)
    (hmem : st.remote.users_teams.any
      (fun m => m.user_id = u && m.team_id = inv.team_id) = true) :
    accept_team_invitation st (some u) code none now now_iso
      = (Except.ok (some { team_id := inv.team_id, user_email := inv.email, role := inv.role }),
         { st with remote := { st.remote with
             team_invitations := st.remote.team_invitations.map
               (fun i => if i.code = code then { i with redeemed_at := some now } else i) } }) := by
  have hadd := add_user_duplicate 3 st u inv.team_id inv.role inv.invited_by now_iso
    hrole hinvby hmem
  have hexpired : decide (te < now) = false := by simp [hfresh]
  simp only [accept_team_invitation, require_user_id, selectInvitesByCode, hsch, hcap,
    Bool.not_true, Bool.false_eq_true, if_false, hfound, hexpat, hexpired]
  simp only [add_user_to_team, hadd, redeem_and_return, updateInviteRedeemedB, hsch,
    Bool.not_true, Bool.false_eq_true, if_false]

/-- Counterexample to C6 as stated: on a concrete full-schema state, the
first accept succeeds and stamps `redeemed_at`, yet a second accept of
the same code still returns the acceptance payload instead of the
not-found result. -/
theorem accept_twice_counterexample :
    (accept_team_invitation
        { caps := Caps.init,
          remote := { emptyRemote fullSchema with
            team_invitations := [{ demoInvite with expires_at := none }] } }
        (some "u1") "ABC123" none 100 "iso1").1
      = Except.ok (some { team_id := "t1", user_email := "member1", role := "member" })
    ∧ ((accept_team_invitation
        { caps := Caps.init,
          remote := { emptyRemote fullSchema with
            team_invitations := [{ demoInvite with expires_at := none }] } }
        (some "u1") "ABC123" none 100 "iso1").2.remote.team_invitations.map
          (fun i => i.redeemed_at)) = [some 100]
    ∧ (accept_team_invitation
        ((accept_team_invitation
          { caps := Caps.init,
            remote := { emptyRemote fullSchema with
              team_invitations := [{ demoInvite with expires_at := none }] } }
          (some "u1") "ABC123" none 100 "iso1").2)
        (some "u1") "ABC123" none 200 "iso2").1
      = Except.ok (some { team_id := "t1", user_email := "member1", role := "member" }) := by
  refine ⟨?_, ?_, ?_⟩ <;> rfl

/-- Witness for the amended C6: a concrete invitation redeemed at instant
100 with expiry instant 500 is accepted again at instant 200, returning
the acceptance payload and only restamping `redeemed_at`. -/
theorem accept_redeemed_invitation_witness :
    accept_team_invitation redeemedInviteSt (some "u1") "ABC123" none 200 "iso2"
      = (Except.ok (some { team_id := "t1", user_email := "member1", role := "member" }),
         { redeemedInviteSt with remote := { redeemedInviteSt.remote with
             team_invitations := redeemedInviteSt.remote.team_invitations.map
               (fun i => if i.code = "ABC123" then { i with redeemed_at := some 200 } else i) } }) :=
  accept_redeemed_invitation redeemedInviteSt "u1" "ABC123" 100 500 200 "iso2"
    { demoInvite with expires_at := some (some 500), redeemed_at := some 100 }
    (by decide) (by decide) (by decide) (by decide) (by decide) (by decide) (by decide)
    (by decide) (by decide)

/-! ### C4: delete_team authorization -/

theorem fetch_membership_go_ok (fuel : Nat) (st : DbState) (u t : String)
    (hrole : st.remote.schema.users_teams_role = true)
    (hinvby : st.remote.schema.users_teams_invited_by = true) :
    fetch_membership_go (fuel+1) u t st
      = (Except.ok
          (((st.remote.users_teams.filter
              (fun m => m.user_id = u && m.team_id = t)).head?).map
            (fun m =>
              { m with
                role := if st.caps.supports_user_team_role then m.role else none,
                invited_by := if st.caps.supports_user_team_invited_by
                  then m.invited_by else none })), st) := by
  simp only [fetch_membership_go, selectMembershipB, hrole, hinvby, Bool.not_true,
    Bool.and_false, Bool.false_eq_true, if_false]

/-- `_assert_role` rejects when the role column is live and the caller has
no membership row or a non-permitted role. -/
theorem assert_role_denied (st : DbState) (u tid : String) (allowed : List String)
    (hcaprole : st.caps.supports_user_team_role = true)
    (hrole : st.remote.schema.users_teams_role = true)
    (hinvby : st.remote.schema.users_teams_invited_by = true)
    (hnot : ∀ m ∈ st.remote.users_teams,
      m.user_id = u → m.team_id = tid →
        (match m.role with
         | none => True
         | some rl => ¬ allowed.contains rl)) :
    assert_role st (some u) tid allowed
      = (Except.error (DbError.authorizationFailure
          "You do not have permission to manage this team."), st) := by
  have hfm := fetch_membership_go_ok 2 st u tid hrole hinvby
  simp only [assert_role, hcaprole, Bool.not_true, Bool.false_eq_true, if_false,
    require_user_id, fetch_membership, hfm]
  cases hh : (st.remote.users_teams.filter
      (fun m => m.user_id = u && m.team_id = tid)).head? with
  | none => simp
  | some m =>
    have hm : m ∈ st.remote.users_teams ∧ (m.user_id = u ∧ m.team_id = tid) := by
      cases hfl : st.remote.users_teams.filter
          (fun m => m.user_id = u && m.team_id = tid) with
      | nil => rw [hfl] at hh; cases hh
      | cons a as =>
        rw [hfl] at hh
        have ha : a = m := by simpa using hh
        subst ha
        have := List.mem_filter.mp (hfl ▸ List.mem_cons_self a as)
        simpa using this
    have := hnot m hm.1 hm.2.1 hm.2.2
    cases hr : m.role with
    | none => simp [hcaprole, hr]
    | some rl =>
      rw [hr] at this
      have h3 : rl ∉ allowed := by simpa using this
      simp [hcaprole, hr, h3]

/-- `_assert_role` is skipped entirely when the role capability is off. -/
theorem assert_role_skipped (st : DbState) (au : Option String) (tid : String)
    (allowed : List String)
    (hcaprole : st.caps.supports_user_team_role = false) :
    assert_role st au tid allowed = (Except.ok (), st) := by
  simp [assert_role, hcaprole]

/-- C4: with the `users_teams.role` column live and its capability flag
on, `delete_team` by a caller whose membership role is not `owner` (or
who has no membership row) raises `AuthorizationError` and leaves the
teams table untouched; with the capability flag off the role check is
skipped entirely and the (soft) delete proceeds. -/
theorem delete_team_owner_check :
    (∀ (st : DbState) (u tid now_iso : String),
      st.caps.supports_user_team_role = true →
      st.remote.schema.users_teams_role = true →
      st.remote.schema.users_teams_invited_by = true →
      (∀ m ∈ st.remote.users_teams,
        m.user_id = u → m.team_id = tid → m.role ≠ some "owner") →
      delete_team st (some u) tid now_iso
        = (Except.error (DbError.authorizationFailure
            "You do not have permission to manage this team."), st))
    ∧ (∀ (st : DbState) (au : Option String) (tid now_iso : String),
      st.caps.supports_user_team_role = false →
      st.remote.schema.teams_deleted_at = true →
      st.remote.teams.any (fun t => t.id = tid) = true →
      delete_team st au tid now_iso
        = (Except.ok true,
           { st with remote := { st.remote with teams := st.remote.teams.map (fun t => if t.id = tid then { t with deleted_at := some now_iso } else t) } })) := by
  constructor
  · intro st u tid now_iso hcaprole hrole hinvby hnotowner
    have hdenied := assert_role_denied st u tid ["owner"] hcaprole hrole hinvby
      (by
        intro m hm hmu hmt
        cases hr : m.role with
        | none => trivial
        | some rl =>
          have := hnotowner m hm hmu hmt
          rw [hr] at this
          simp only [List.contains_cons, List.contains_nil, Bool.or_false]
          intro hc
          apply this
          have : rl = "owner" := by simpa using hc
          rw [this])
    simp only [delete_team, hdenied]
  · intro st au tid now_iso hcaprole hdel hexists
    have hskip := assert_role_skipped st au tid ["owner"] hcaprole
    simp only [delete_team, hskip, updateTeamDeletedAtB, hdel, Bool.not_true,
      Bool.false_eq_true, if_false]
    have hne : ((st.remote.teams.filter (fun t => t.id = tid)).map
        (fun t => { t with deleted_at := some now_iso })).isEmpty = false := by
      rw [List.isEmpty_eq_false_iff_exists_mem]
      rcases List.any_eq_true.mp hexists with ⟨t, ht, htid⟩
      exact ⟨_, List.mem_map.mpr ⟨t, List.mem_filter.mpr ⟨ht, htid⟩, rfl⟩⟩
    simp [hne]

/-- Witness for C4: a concrete non-owner is rejected, and with the role
capability off the same delete proceeds as a soft delete. -/
theorem delete_team_owner_check_witness :
    delete_team
        { caps := Caps.init,
          remote := { emptyRemote fullSchema with
            teams := [demoTeam],
            users_teams := [demoMembership] } }
        (some "u1") "t1" "2024-03-01T00:00:00+00:00"
      = (Except.error (DbError.authorizationFailure
          "You do not have permission to manage this team."),
         { caps := Caps.init,
           remote := { emptyRemote fullSchema with
             teams := [demoTeam],
             users_teams := [demoMembership] } })
    ∧ delete_team
        { caps := { Caps.init with supports_user_team_role := false },
          remote := { emptyRemote fullSchema with teams := [demoTeam] } }
        (some "u1") "t1" "2024-03-01T00:00:00+00:00"
      = (Except.ok true,
         { caps := { Caps.init with supports_user_team_role := false },
           remote := { emptyRemote fullSchema with teams := [demoTeam].map (fun t => if t.id = "t1" then { t with deleted_at := some "2024-03-01T00:00:00+00:00" } else t) } }) :=
  ⟨delete_team_owner_check.1
      { caps := Caps.init,
        remote := { emptyRemote fullSchema with
          teams := [demoTeam],
          users_teams := [demoMembership] } }
      "u1" "t1" "2024-03-01T00:00:00+00:00" (by decide) (by decide) (by decide) (by decide),
   delete_team_owner_check.2
      { caps := { Caps.init with supports_user_team_role := false },
        remote := { emptyRemote fullSchema with teams := [demoTeam] } }
      (some "u1") "t1" "2024-03-01T00:00:00+00:00" (by decide) (by decide) (by decide)⟩

/-! ### C2: capability flags never go back up -/

theorem capsLE_refl (c : Caps) : CapsLE c c :=
  ⟨id, id, id, id, id, id, id⟩

theorem capsLE_trans {a b c : Caps} (h1 : CapsLE a b) (h2 : CapsLE b c) : CapsLE a c := by
  obtain ⟨p1, p2, p3, p4, p5, p6, p7⟩ := h1
  obtain ⟨q1, q2, q3, q4, q5, q6, q7⟩ := h2
  exact ⟨fun h => q1 (p1 h), fun h => q2 (p2 h), fun h => q3 (p3 h), fun h => q4 (p4 h),
    fun h => q5 (p5 h), fun h => q6 (p6 h), fun h => q7 (p7 h)⟩

theorem handle_slug_capability_error_le (c : Caps) (m : String) :
    CapsLE (handle_slug_capability_error c m).1 c := by
  simp only [handle_slug_capability_error]
  unfold CapsLE
  split <;> simp

theorem handle_team_column_error_le (c : Caps) (m : String) :
    CapsLE (handle_team_column_error c m).1 c := by
  simp only [handle_team_column_error]
  unfold CapsLE
  split <;> split <;> simp

theorem handle_users_team_column_error_le (c : Caps) (m : String) :
    CapsLE (handle_users_team_column_error c m).1 c := by
  simp only [handle_users_team_column_error]
  unfold CapsLE
  split <;> split <;> simp

theorem handle_invitations_error_le (c : Caps) (m : String) :
    CapsLE (handle_invitations_error c m).1 c := by
  simp only [handle_invitations_error]
  unfold CapsLE
  split <;> simp

theorem handle_notes_column_error_le (c : Caps) (m : String) :
    CapsLE (handle_notes_column_error c m).1 c := by
  simp only [handle_notes_column_error]
  unfold CapsLE
  split <;> simp

theorem unique_team_slug_go_le (base : String) (ex : Option String) :
    ∀ (fuel attempt : Nat) (cand : String) (st : DbState),
      CapsLE (unique_team_slug_go base ex fuel attempt cand st).2.caps st.caps := by
  intro fuel
  induction fuel with
  | zero => intro a c st; exact capsLE_refl _
  | succ fuel ih =>
    intro a c st
    simp only [unique_team_slug_go]
    split
    all_goals repeat' split
    all_goals
      first
        | exact capsLE_refl _
        | exact ih _ _ _
        | exact handle_slug_capability_error_le _ _

theorem unique_team_slug_le (st : DbState) (name : String) (ex : Option String) :
    CapsLE (unique_team_slug st name ex).2.caps st.caps := by
  simp only [unique_team_slug]
  split
  · exact capsLE_refl _
  · exact unique_team_slug_go_le _ _ _ _ _ _

theorem fetch_team_by_slug_le (st : DbState) (v : String) :
    CapsLE (fetch_team_by_slug st v).2.caps st.caps := by
  simp only [fetch_team_by_slug]
  split
  all_goals repeat' split
  all_goals
    first
      | exact capsLE_refl _
      | exact handle_slug_capability_error_le _ _

theorem fetch_team_by_identifier_le (st : DbState) (v : String) :
    CapsLE (fetch_team_by_identifier st v).2.caps st.caps := by
  simp only [fetch_team_by_identifier]
  split
  · exact capsLE_refl _
  · split
    · exact capsLE_refl _
    · have hs : CapsLE (if st.caps.supports_team_slug then fetch_team_by_slug st v
          else (Except.ok none, st)).2.caps st.caps := by
        split
        · exact fetch_team_by_slug_le st v
        · exact capsLE_refl _
      split
      all_goals
        rename_i heq
        rw [heq] at hs
        exact hs

theorem resolve_team_id_le (st : DbState) (v : String) :
    CapsLE (resolve_team_id st v).2.caps st.caps := by
  simp only [resolve_team_id]
  have hs := fetch_team_by_identifier_le st v
  split
  all_goals
    rename_i heq
    rw [heq] at hs
    exact hs

theorem fetch_membership_go_le :
    ∀ (fuel : Nat) (u t : String) (st : DbState),
      CapsLE (fetch_membership_go fuel u t st).2.caps st.caps := by
  intro fuel
  induction fuel with
  | zero => intro u t st; exact capsLE_refl _
  | succ fuel ih =>
    intro u t st
    simp only [fetch_membership_go]
    split
    · exact capsLE_refl _
    · split
      · exact capsLE_trans (ih _ _ _) (handle_users_team_column_error_le _ _)
      · exact handle_users_team_column_error_le _ _

theorem fetch_membership_le (st : DbState) (u t : String) :
    CapsLE (fetch_membership st u t).2.caps st.caps :=
  fetch_membership_go_le 3 u t st

theorem assert_role_le (st : DbState) (au : Option String) (tid : String)
    (al : List String) :
    CapsLE (assert_role st au tid al).2.caps st.caps := by
  simp only [assert_role]
  split
  · exact capsLE_refl _
  · split
    · exact capsLE_refl _
    · rename_i u heq0
      have hs := fetch_membership_le st u tid
      split
      all_goals rename_i heq
      all_goals rw [heq] at hs
      · exact hs
      · split
        · exact hs
        · exact hs

theorem add_user_to_team_go_le :
    ∀ (fuel : Nat) (u t rl : String) (inv : Option String) (ni : String) (st : DbState),
      CapsLE (add_user_to_team_go fuel u t rl inv ni st).2.caps st.caps := by
  intro fuel
  induction fuel with
  | zero => intro u t rl inv ni st; exact capsLE_refl _
  | succ fuel ih =>
    intro u t rl inv ni st
    simp only [add_user_to_team_go]
    split
    · exact capsLE_refl _
    · repeat' split
      all_goals
        first
          | exact capsLE_trans (ih _ _ _ _ _ _) (handle_users_team_column_error_le _ _)
          | exact handle_users_team_column_error_le _ _

theorem add_user_to_team_le (st : DbState) (u t rl : String) (inv : Option String)
    (ni : String) :
    CapsLE (add_user_to_team st u t rl inv ni).2.caps st.caps :=
  add_user_to_team_go_le 4 u t rl inv ni st

theorem slug_payload_step_le (st : DbState) (name : String) (sv : Option String)
    (pl : TeamInsert) :
    CapsLE (slug_payload_step st name sv pl).2.caps st.caps := by
  simp only [slug_payload_step]
  split
  · have hu := unique_team_slug_le st name none
    split
    all_goals rename_i heq0
    all_goals rw [heq0] at hu
    all_goals exact hu
  · exact capsLE_refl _

theorem slug_payload_step_le_of_eq {st st2 : DbState} {name : String}
    {sv : Option String} {pl : TeamInsert} {x : Except DbError (Option String × TeamInsert)}
    (heq : slug_payload_step st name sv pl = (x, st2)) : CapsLE st2.caps st.caps := by
  have h := slug_payload_step_le st name sv pl
  rw [heq] at h
  exact h

theorem create_team_go_le :
    ∀ (fuel : Nat) (uid name : String) (d sv : Option String) (st : DbState),
      CapsLE (create_team_go fuel uid name d sv st).2.caps st.caps := by
  intro fuel
  induction fuel with
  | zero => intro uid name d sv st; exact capsLE_refl _
  | succ fuel ih =>
    intro uid name d sv st
    simp only [create_team_go]
    split
    · rename_i heq
      exact slug_payload_step_le_of_eq heq
    · rename_i sv1 pl1 st1 heq
      have hs := slug_payload_step_le_of_eq heq
      split
      · exact hs
      · split
        · exact capsLE_trans
            (capsLE_trans (ih _ _ _ _ _) (handle_slug_capability_error_le _ _)) hs
        · split
          · exact capsLE_trans (capsLE_trans (ih _ _ _ _ _)
              (capsLE_trans (handle_team_column_error_le _ _)
                (handle_slug_capability_error_le _ _))) hs
          · split
            · exact capsLE_trans (capsLE_trans (handle_team_column_error_le _ _)
                (handle_slug_capability_error_le _ _)) hs
            · exact capsLE_trans (capsLE_trans (handle_team_column_error_le _ _)
                (handle_slug_capability_error_le _ _)) hs

theorem create_team_le (st : DbState) (au : Option String) (name : String)
    (d : Option String) (ni : String) :
    CapsLE (create_team st au name d ni).2.caps st.caps := by
  simp only [create_team]
  split
  · exact capsLE_refl _
  · rename_i uid heq0
    have hs := create_team_go_le 5 uid name d none st
    split
    · rename_i heq
      rw [heq] at hs
      exact hs
    · rename_i row sv st1 heq
      rw [heq] at hs
      have ha := add_user_to_team_le st1 uid row.id "owner" (some uid) ni
      split
      all_goals rename_i heq2
      all_goals rw [heq2] at ha
      all_goals exact capsLE_trans ha hs

theorem delete_team_le (st : DbState) (au : Option String) (tid ni : String) :
    CapsLE (delete_team st au tid ni).2.caps st.caps := by
  simp only [delete_team]
  have hs := assert_role_le st au tid ["owner"]
  split
  · rename_i heq
    rw [heq] at hs
    exact hs
  · rename_i heq
    rw [heq] at hs
    repeat' split
    all_goals exact hs

theorem add_user_le_of_eq {A st2 : DbState} {B C D F : String} {E : Option String}
    {x : Except DbError Bool} (heq : add_user_to_team A B C D E F = (x, st2)) :
    CapsLE st2.caps A.caps := by
  have h := add_user_to_team_le A B C D E F
  rw [heq] at h
  exact h

theorem redeem_and_return_caps (st : DbState) (cd : String) (inv : InviteRow) (n : Int) :
    (redeem_and_return st cd inv n).2.caps = st.caps := by
  simp only [redeem_and_return]
  split <;> rfl

theorem invitation_dup_check_le (st : DbState) (tid em : String) :
    CapsLE (invitation_dup_check st tid em).2.caps st.caps := by
  simp only [invitation_dup_check]
  split
  all_goals repeat' split
  all_goals
    first
      | exact capsLE_refl _
      | exact handle_invitations_error_le _ _

theorem create_team_invitation_le (st : DbState) (au : Option String)
    (em tid rl cd : String) (ex : Option Int) (n : Int) :
    CapsLE (create_team_invitation st au em tid rl cd ex n).2.caps st.caps := by
  simp only [create_team_invitation]
  have hs := assert_role_le st au tid ["owner", "admin"]
  split
  · rename_i heq
    rw [heq] at hs
    exact hs
  · rename_i st1 heq
    rw [heq] at hs
    split
    · exact hs
    · split
      · exact hs
      · have hd0 := invitation_dup_check_le st1 tid em
        split
        · rename_i st2 heq2
          rw [heq2] at hd0
          exact capsLE_trans hd0 hs
        · rename_i st2 heq2
          rw [heq2] at hd0
          have h2 := capsLE_trans hd0 hs
          repeat' split
          all_goals
            first
              | exact h2
              | exact capsLE_trans (handle_invitations_error_le _ _) h2

theorem accept_team_invitation_le (st : DbState) (au : Option String) (cd : String)
    (uid : Option String) (n : Int) (ni : String) :
    CapsLE (accept_team_invitation st au cd uid n ni).2.caps st.caps := by
  simp only [accept_team_invitation]
  split
  · exact capsLE_refl _
  · split
    · exact capsLE_refl _
    · split
      · split
        · exact handle_invitations_error_le _ _
        · exact handle_invitations_error_le _ _
      · split
        · exact capsLE_refl _
        · split
          · exact capsLE_refl _
          · split
            all_goals rename_i heq2
            · rw [redeem_and_return_caps]
              exact add_user_le_of_eq heq2
            · exact add_user_le_of_eq heq2
            · rw [redeem_and_return_caps]
              exact add_user_le_of_eq heq2

theorem list_notes_go_le :
    ∀ (fuel : Nat) (lim : Option Nat) (tg tm : Option String) (st : DbState),
      CapsLE (list_notes_go fuel lim tg tm st).2.caps st.caps := by
  intro fuel
  induction fuel with
  | zero => intro lim tg tm st; exact capsLE_refl _
  | succ fuel ih =>
    intro lim tg tm st
    cases tm with
    | none =>
      simp only [list_notes_go]
      repeat' split
      all_goals
        first
          | exact capsLE_refl _
          | exact capsLE_trans (ih _ _ _ _) (handle_notes_column_error_le _ _)
          | exact handle_notes_column_error_le _ _
    | some t =>
      by_cases ht : t = ""
      · subst ht
        simp only [list_notes_go, if_true]
        repeat' split
        all_goals
          first
            | exact capsLE_refl _
            | exact capsLE_trans (ih _ _ _ _) (handle_notes_column_error_le _ _)
            | exact handle_notes_column_error_le _ _
      · simp only [list_notes_go, if_neg ht]
        have hs : CapsLE ((match resolve_team_id st t with
            | (Except.error e, st) => (Except.error e, st)
            | (Except.ok r, st) => (Except.ok (some (r.getD t)), st)) :
            Except DbError (Option String) × DbState).2.caps st.caps := by
          have hr := resolve_team_id_le st t
          split
          all_goals rename_i heq0
          all_goals rw [heq0] at hr
          all_goals exact hr
        split
        · rename_i heq
          rw [heq] at hs
          exact hs
        · rename_i st1 heq
          rw [heq] at hs
          repeat' split
          all_goals
            first
              | exact hs
              | exact capsLE_trans (ih _ _ _ _)
                  (capsLE_trans (handle_notes_column_error_le _ _) hs)
              | exact capsLE_trans (handle_notes_column_error_le _ _) hs

theorem list_notes_remote_le (st : DbState) (lim : Option Nat) (tg tm : Option String) :
    CapsLE (list_notes_remote st lim tg tm).2.caps st.caps :=
  list_notes_go_le 3 lim tg tm st

theorem add_tags_step_caps (nid x : String) (st : DbState) :
    (add_tags_step nid st x).caps = st.caps := by
  simp only [add_tags_step]
  split <;> rfl

theorem add_tags_to_note_caps (st : DbState) (nid : String) (ts : List String) :
    (add_tags_to_note st nid ts).caps = st.caps := by
  unfold add_tags_to_note
  generalize normalizedTags ts = L
  induction L generalizing st with
  | nil => rfl
  | cons x xs ih => rw [List.foldl_cons, ih, add_tags_step_caps]

theorem step_le (st : DbState) (op : DbOp) : CapsLE (DbOp.step st op).caps st.caps := by
  cases op with
  | createTeam u n d ni => exact create_team_le st u n d ni
  | deleteTeam u t ni => exact delete_team_le st u t ni
  | addUserToTeam u t rl inv ni => exact add_user_to_team_le st u t rl inv ni
  | createInvitation u em t rl cd ex n => exact create_team_invitation_le st u em t rl cd ex n
  | acceptInvitation u cd uid n ni => exact accept_team_invitation_le st u cd uid n ni
  | listNotes lim tg tm => exact list_notes_remote_le st lim tg tm
  | addTags nid tgs =>
    show CapsLE (add_tags_to_note st nid tgs).caps st.caps
    rw [add_tags_to_note_caps]
    exact capsLE_refl _

theorem runTrace_caps_le (st : DbState) (ops : List DbOp) :
    CapsLE (runTrace st ops).caps st.caps := by
  induction ops generalizing st with
  | nil => exact capsLE_refl _
  | cons op ops ih => exact capsLE_trans (ih (DbOp.step st op)) (step_le st op)

/-- C2: capability flags are monotonically non-increasing over the life of
one connection: no single modelled operation, and no sequence of them,
ever turns a capability flag that was `false` back to `true` (stated as:
any flag still on afterwards was already on before). -/
theorem capability_flags_monotone :
    (∀ (st : DbState) (op : DbOp), CapsLE (DbOp.step st op).caps st.caps)
    ∧ ∀ (st : DbState) (ops : List DbOp), CapsLE (runTrace st ops).caps st.caps :=
  ⟨step_le, runTrace_caps_le⟩

/-! ### C1: the slug capability downgrade during create_team -/

theorem slugify_ne_empty (v : String) : slugify v ≠ "" := by
  simp only [slugify]
  split
  · intro h
    exact absurd h (by decide)
  · rename_i h
    exact h

theorem unique_team_slug_go_silent (base : String) (ex : Option String)
    (fuel attempt : Nat) (cand : String) (st : DbState)
    (h2 : st.remote.schema.teams_slug = false)
    (h3 : st.remote.schema.slug_filter_silent = true) :
    unique_team_slug_go base ex (fuel+1) attempt cand st = (Except.ok (some cand), st) := by
  simp only [unique_team_slug_go, selectTeamsBySlug, h2, h3]
  simp

theorem unique_team_slug_silent (st : DbState) (name : String)
    (h1 : st.caps.supports_team_slug = true)
    (h2 : st.remote.schema.teams_slug = false)
    (h3 : st.remote.schema.slug_filter_silent = true) :
    unique_team_slug st name none = (Except.ok (some (slugify name)), st) := by
  simp only [unique_team_slug, h1, Bool.not_true, Bool.false_eq_true, if_false]
  exact unique_team_slug_go_silent _ _ 59 1 _ st h2 h3

theorem create_team_go_slug_retry (fuel : Nat) (st : DbState) (uid name : String)
    (h1 : st.caps.supports_team_slug = true)
    (h2 : st.remote.schema.teams_slug = false)
    (h3 : st.remote.schema.slug_filter_silent = true)
    (h4 : st.remote.schema.teams_created_by = true) :
    ∃ row : TeamRow,
      create_team_go (fuel+1+1) uid name none none st
        = (Except.ok (row, some (slugify name)),
           { caps := { st.caps with supports_team_slug := false },
             remote := { st.remote with
                         teams := st.remote.teams ++ [row],
                         next_id := st.remote.next_id + 1 } })
      ∧ row.id = genName st.remote.next_id ∧ row.slug = none := by
  have hc1 : strContains (pyLower (missingColumnMsg "teams" "slug")) "slug" = true := by rfl
  have hc2 : strContains (pyLower (missingColumnMsg "teams" "slug")) "does not exist" = true := by
    rfl
  have hsne := slugify_ne_empty name
  have hhandle : handle_slug_capability_error st.caps (missingColumnMsg "teams" "slug")
      = ({ st.caps with supports_team_slug := false }, true) := by
    simp only [handle_slug_capability_error, hc1, hc2]
    simp
  have hsp1 : slug_payload_step st name none
        { name := name, slug := none, description := none, created_by := none }
      = (Except.ok (some (slugify name),
          { name := name, slug := some (slugify name), description := none,
            created_by := none }), st) := by
    simp only [slug_payload_step, h1, if_true, unique_team_slug_silent st name h1 h2 h3]
    simp [hsne]
  have hsp2 : ∀ stX : DbState, stX.caps.supports_team_slug = false →
      slug_payload_step stX name (some (slugify name))
        { name := name, slug := none, description := none, created_by := none }
      = (Except.ok (some (slugify name),
          { name := name, slug := none, description := none, created_by := none }), stX) := by
    intro stX hX
    simp [slug_payload_step, hX]
  by_cases hcb : st.caps.supports_team_created_by = true
  · refine ⟨{ id := genName st.remote.next_id, name := name, slug := none, description := none, created_by := some uid, deleted_at := none }, ?_, rfl, rfl⟩
    simp [create_team_go, hsp1, hsp2, hhandle, insertTeamB, genId, h2, h4, hcb]
  · refine ⟨{ id := genName st.remote.next_id, name := name, slug := none, description := none, created_by := none, deleted_at := none }, ?_, rfl, rfl⟩
    simp [create_team_go, hsp1, hsp2, hhandle, insertTeamB, genId, h2, h4, hcb]

theorem add_user_fresh (fuel : Nat) (st : DbState) (u t rl : String) (inv : Option String)
    (ni : String)
    (h5 : st.remote.schema.users_teams_role = true)
    (h6 : st.remote.schema.users_teams_invited_by = true)
    (h7 : st.remote.users_teams.any (fun m => m.user_id = u && m.team_id = t) = false) :
    ∃ X : MembershipRow,
      add_user_to_team_go (fuel+1) u t rl inv ni st
        = (Except.ok true,
           { st with remote := { st.remote with users_teams := st.remote.users_teams ++ [X] } }) := by
  refine Exists.intro
    { user_id := u, team_id := t, joined_at := ni,
      role := if st.caps.supports_user_team_role then some rl else none,
      invited_by := match inv with
        | some s => if st.caps.supports_user_team_invited_by && s ≠ "" then some s else none
        | none => none }
    ?_
  simp only [add_user_to_team_go, insertMembershipB, h5, h6, h7]
  simp

/-- C1: against a backend whose `teams` table lacks the `slug` column but
whose filters silently match nothing on it (so the failure surfaces at
insert time), `create_team` receives the missing-column error naming
`slug` during the insert, downgrades `supports_team_slug`, retries with a
payload that omits the slug column, and succeeds; the created team row
has no slug, and the flag stays `false` for every subsequent sequence of
operations on this connection. -/
theorem create_team_slug_downgrade (st : DbState) (user name ni : String)
    (h1 : st.caps.supports_team_slug = true)
    (h2 : st.remote.schema.teams_slug = false)
    (h3 : st.remote.schema.slug_filter_silent = true)
    (h4 : st.remote.schema.teams_created_by = true)
    (h5 : st.remote.schema.users_teams_role = true)
    (h6 : st.remote.schema.users_teams_invited_by = true)
    (h7 : ∀ m ∈ st.remote.users_teams, m.team_id ≠ genName st.remote.next_id) :
    ∃ (tid : String) (st2 : DbState),
      create_team st (some user) name none ni = (Except.ok tid, st2)
      ∧ st2.caps.supports_team_slug = false
      ∧ (∃ t ∈ st2.remote.teams, t.id = tid ∧ t.slug = none)
      ∧ ∀ ops : List DbOp, (runTrace st2 ops).caps.supports_team_slug = false := by
  obtain ⟨row, hgo, hrowid, hrowslug⟩ := create_team_go_slug_retry 3 st user name h1 h2 h3 h4
  have hgo5 : create_team_go 5 user name none none st
      = (Except.ok (row, some (slugify name)),
         { caps := { st.caps with supports_team_slug := false },
           remote := { st.remote with
                       teams := st.remote.teams ++ [row],
                       next_id := st.remote.next_id + 1 } }) := hgo
  set st1 : DbState :=
    { caps := { st.caps with supports_team_slug := false },
      remote := { st.remote with
                  teams := st.remote.teams ++ [row],
                  next_id := st.remote.next_id + 1 } } with hst1
  have hany : st1.remote.users_teams.any
      (fun m => m.user_id = user && m.team_id = row.id) = false := by
    rw [List.any_eq_false]
    intro m hm
    have hne : m.team_id ≠ row.id := by
      rw [hrowid]
      exact h7 m hm
    simp [hne]
  obtain ⟨X, hadd⟩ := add_user_fresh 3 st1 user row.id "owner" (some user) ni h5 h6 hany
  have hadd4 : add_user_to_team st1 user row.id "owner" (some user) ni
      = (Except.ok true,
         { st1 with remote := { st1.remote with
            users_teams := st1.remote.users_teams ++ [X] } }) := hadd
  refine ⟨row.id,
    { st1 with remote := { st1.remote with
       users_teams := st1.remote.users_teams ++ [X] } },
    ?_, ?_, ?_, ?_⟩
  · simp only [create_team, require_user_id, hgo5, hadd4]
  · rfl
  · exact ⟨row, by simp [hst1], rfl, hrowslug⟩
  · intro ops
    have hle := runTrace_caps_le
      { st1 with remote := { st1.remote with
         users_teams := st1.remote.users_teams ++ [X] } } ops
    cases hflag : (runTrace { st1 with remote := { st1.remote with
        users_teams := st1.remote.users_teams ++ [X] } } ops).caps.supports_team_slug
    · rfl
    · have hcontra := hle.1 hflag
      simp [hst1] at hcontra

/-- Concrete instantiation of the C1 theorem on a fresh connection to a
backend whose teams table lacks the slug column. -/
theorem create_team_slug_downgrade_witness :
    ∃ (tid : String) (st2 : DbState),
      create_team noSlugSt (some "user-1") "Demo Team" none "2024-01-02T00:00:00+00:00"
        = (Except.ok tid, st2)
      ∧ st2.caps.supports_team_slug = false
      ∧ (∃ t ∈ st2.remote.teams, t.id = tid ∧ t.slug = none)
      ∧ ∀ ops : List DbOp, (runTrace st2 ops).caps.supports_team_slug = false :=
  create_team_slug_downgrade noSlugSt "user-1" "Demo Team" "2024-01-02T00:00:00+00:00"
    rfl rfl rfl rfl rfl rfl
    (by intro m hm; simp [noSlugSt, emptyRemote] at hm)
